import Mathlib

/-!
Verification of tytools (Teensy board management library).

Shallow embedding of the C sources:
  * `src/libty/monitor.c`        — board aggregator / monitor state machine
  * `src/src/libty/board_teensy.c` — model registry, interface classifier,
                                     serial parsing, firmware identification,
                                     HalfKay protocol engine
  * `src/src/board.c`            — earlier-generation board manager
                                     (upload entry point, firmware test)

Machine integers are modelled as `Nat` with explicit masking where the C code
masks; buffers and firmware images are `List Nat` of byte values; nullable
pointers become `Option`.
-/

set_option maxRecDepth 4000

namespace TyTools

/-! ## C standard library model: strtoull

`strtoull(s, NULL, base)` as used by the sources: accumulate digits of the
given base from the start of the string, stopping at the first character that
is not a digit of the base; on overflow the C function returns ULLONG_MAX.
The sources never pass strings with leading whitespace or signs, so that
handling is not modelled. For base 16 an optional 0x prefix is accepted. -/

def ULLONG_MAX : Nat := 2 ^ 64 - 1

def digitVal (base : Nat) (c : Char) : Option Nat :=
  let v : Option Nat :=
    if '0' ≤ c ∧ c ≤ '9' then some (c.toNat - '0'.toNat)
    else if 'a' ≤ c ∧ c ≤ 'z' then some (c.toNat - 'a'.toNat + 10)
    else if 'A' ≤ c ∧ c ≤ 'Z' then some (c.toNat - 'A'.toNat + 10)
    else none
  match v with
  | some d => if d < base then some d else none
  | none => none

def strtoullDigits (base : Nat) : List Char → Nat → Bool → Nat
  | [], acc, ovf => if ovf then ULLONG_MAX else acc
  | c :: rest, acc, ovf =>
    match digitVal base c with
    | none => if ovf then ULLONG_MAX else acc
    | some d =>
      strtoullDigits base rest (acc * base + d) (ovf || decide (acc * base + d > ULLONG_MAX))

def strtoull (base : Nat) (s : String) : Nat :=
  let cs := s.data
  let cs :=
    if base = 16 then
      match cs with
      | '0' :: 'x' :: rest => rest
      | '0' :: 'X' :: rest => rest
      | _ => cs
    else cs
  strtoullDigits base cs 0 false

/-! ## Capability bits

Modelled from the spec: the capability enumeration lives in `ty/board.h`,
which is not among the sources. Only the distinctness of the bits is
observable in the modelled code. -/

def TY_BOARD_CAPABILITY_RUN : Nat := 0
def TY_BOARD_CAPABILITY_SERIAL : Nat := 1
def TY_BOARD_CAPABILITY_UPLOAD : Nat := 2
def TY_BOARD_CAPABILITY_RESET : Nat := 3
def TY_BOARD_CAPABILITY_REBOOT : Nat := 4
def TY_BOARD_CAPABILITY_IDENTIFY : Nat := 5
def TY_BOARD_CAPABILITY_UNIQUE : Nat := 6

/-! ## Devices (the hotplug source contract)

A device descriptor as consumed from libhs: identity (the descriptor
pointer, modelled as a numeric id), location string, vid/pid, device type,
HID usage page and usage, and the serial number string. -/

inductive HsDeviceType where
  | serial
  | hid
deriving DecidableEq, Repr

structure HsDevice where
  devId : Nat
  location : String
  vid : Nat
  pid : Nat
  devType : HsDeviceType
  usagePage : Nat
  usage : Nat
  serialNumberString : Option String
deriving DecidableEq, Repr

/-! ## Model registry (`board_teensy.c`) -/

structure ty_board_model where
  name : String
  mcu : String
  usage : Nat
  experimental : Bool
  code_size : Nat
  halfkay_version : Nat
  block_size : Nat
deriving DecidableEq, Repr

def teensy_unknown_model : ty_board_model :=
  { name := "Teensy", mcu := "", usage := 0, experimental := false,
    code_size := 0, halfkay_version := 0, block_size := 0 }

def teensy_pp10_model : ty_board_model :=
  { name := "Teensy++ 1.0", mcu := "at90usb646", usage := 0x1A, experimental := true,
    code_size := 64512, halfkay_version := 1, block_size := 256 }

def teensy_20_model : ty_board_model :=
  { name := "Teensy 2.0", mcu := "atmega32u4", usage := 0x1B, experimental := true,
    code_size := 32256, halfkay_version := 1, block_size := 128 }

def teensy_pp20_model : ty_board_model :=
  { name := "Teensy++ 2.0", mcu := "at90usb1286", usage := 0x1C, experimental := false,
    code_size := 130048, halfkay_version := 2, block_size := 256 }

def teensy_30_model : ty_board_model :=
  { name := "Teensy 3.0", mcu := "mk20dx128", usage := 0x1D, experimental := false,
    code_size := 131072, halfkay_version := 3, block_size := 1024 }

def teensy_31_model : ty_board_model :=
  { name := "Teensy 3.1", mcu := "mk20dx256", usage := 0x1E, experimental := false,
    code_size := 262144, halfkay_version := 3, block_size := 1024 }

def teensy_lc_model : ty_board_model :=
  { name := "Teensy LC", mcu := "mkl26z64", usage := 0x20, experimental := false,
    code_size := 63488, halfkay_version := 3, block_size := 512 }

def teensy_32_model : ty_board_model :=
  { name := "Teensy 3.2", mcu := "mk20dx256", usage := 0x21, experimental := false,
    code_size := 262144, halfkay_version := 3, block_size := 1024 }

def teensy_k64_model : ty_board_model :=
  { name := "Teensy 3.4", mcu := "mk64fx512", usage := 0x23, experimental := false,
    code_size := 524288, halfkay_version := 3, block_size := 1024 }

def teensy_k66_model : ty_board_model :=
  { name := "Teensy 3.5", mcu := "mk66fx1m0", usage := 0x22, experimental := false,
    code_size := 1048576, halfkay_version := 3, block_size := 1024 }

def teensy_models : List ty_board_model :=
  [teensy_pp10_model, teensy_20_model, teensy_pp20_model, teensy_30_model,
   teensy_31_model, teensy_lc_model, teensy_32_model, teensy_k64_model, teensy_k66_model]

/-- Modelled from the spec: `ty_board_model_is_real` is defined in
`libty/board.c`, which is not among the sources; the spec calls a model real
when it is not the `unknown` sentinel. The unknown sentinel is the only model
of the registry with `code_size = 0`. -/
def ty_board_model_is_real (m : ty_board_model) : Bool :=
  m.code_size != 0

/-! ## Interface classifier (`board_teensy.c`) -/

def TEENSY_VID : Nat := 0x16C0

def TEENSY_USAGE_PAGE_BOOTLOADER : Nat := 0xFF9C
def TEENSY_USAGE_PAGE_RAWHID : Nat := 0xFFAB
def TEENSY_USAGE_PAGE_SEREMU : Nat := 0xFFC9

def identify_model (usage : Nat) : Option ty_board_model :=
  teensy_models.find? (fun m => m.usage == usage)

def teensy_pid_ok (pid : Nat) : Bool :=
  pid == 0x478 || pid == 0x482 || pid == 0x483 || pid == 0x484 ||
  pid == 0x485 || pid == 0x486 || pid == 0x487 || pid == 0x488

/-- Result of `teensy_load_interface`: the name, model and capability mask it
stores on the interface when it accepts the device. -/
structure LoadedInterface where
  name : String
  model : ty_board_model
  capabilities : Nat
deriving DecidableEq, Repr

def teensy_load_interface (dev : HsDevice) : Option LoadedInterface :=
  if dev.vid != TEENSY_VID then none
  else if !teensy_pid_ok dev.pid then none
  else
    match dev.devType with
    | .serial =>
      some { name := "Serial", model := teensy_unknown_model,
             capabilities := (1 <<< TY_BOARD_CAPABILITY_RUN) |||
                             (1 <<< TY_BOARD_CAPABILITY_SERIAL) |||
                             (1 <<< TY_BOARD_CAPABILITY_REBOOT) }
    | .hid =>
      if dev.usagePage == TEENSY_USAGE_PAGE_BOOTLOADER then
        match identify_model dev.usage with
        | some m =>
          some { name := "HalfKay", model := m,
                 capabilities := (1 <<< TY_BOARD_CAPABILITY_UPLOAD) |||
                                 (1 <<< TY_BOARD_CAPABILITY_RESET) }
        | none =>
          some { name := "HalfKay", model := teensy_unknown_model, capabilities := 0 }
      else if dev.usagePage == TEENSY_USAGE_PAGE_RAWHID then
        some { name := "RawHID", model := teensy_unknown_model,
               capabilities := 1 <<< TY_BOARD_CAPABILITY_RUN }
      else if dev.usagePage == TEENSY_USAGE_PAGE_SEREMU then
        some { name := "Seremu", model := teensy_unknown_model,
               capabilities := (1 <<< TY_BOARD_CAPABILITY_RUN) |||
                               (1 <<< TY_BOARD_CAPABILITY_SERIAL) |||
                               (1 <<< TY_BOARD_CAPABILITY_REBOOT) }
      else none

/-! ## Serial-number parsing -/

/-- Translation of `parse_bootloader_serial` in `board_teensy.c`: a missing
string yields 12345 (AVR Teensy 1.0 and 2.0), otherwise the string is parsed
as base-16, the sentinel 100 maps to 0 and values below 10000000 are
multiplied by 10. -/
def parse_bootloader_serial : Option String → Nat
  | none => 12345
  | some s =>
    let serial := strtoull 16 s
    if serial = 100 then 0
    else if serial < 10000000 then serial * 10
    else serial

/-- Translation of `parse_serial_number` in `src/src/board.c`: a missing
string yields 0; a leading 0 selects base 16 (with the times-10 workaround),
otherwise base 10 is used directly. -/
def parse_serial_number : Option String → Nat
  | none => 0
  | some s =>
    let base := match s.data with
      | c :: _ => if c = '0' then 16 else 10
      | [] => 10
    let serial := strtoull base s
    if base = 16 ∧ serial < 10000000 then serial * 10 else serial

/-! ## Firmware identification (`teensy_guess_models` in `board_teensy.c`) -/

structure firmware_signature where
  magic : Nat
  model : ty_board_model
  priority : Nat
deriving DecidableEq, Repr

def signatures : List firmware_signature :=
  [⟨0x0C94007EFFCFF894, teensy_pp10_model, 0⟩,
   ⟨0x0C94003FFFCFF894, teensy_20_model, 0⟩,
   ⟨0x0C9400FEFFCFF894, teensy_pp20_model, 0⟩,
   ⟨0x38800440823F0400, teensy_30_model, 0⟩,
   ⟨0x30800440823F0400, teensy_31_model, 0⟩,
   ⟨0x34800440823F0000, teensy_lc_model, 0⟩,
   ⟨0x30800440823F0400, teensy_32_model, 0⟩,
   ⟨0x0100002B88ED00E0, teensy_k64_model, 1⟩,
   ⟨0x002008E003000085, teensy_k66_model, 2⟩]

/-- Big-endian 64-bit read at offset `i`, exactly as assembled by the shifts
in `teensy_guess_models`. -/
def read_be_u64 (image : List Nat) (i : Nat) : Nat :=
  (image.getD i 0 <<< 56) ||| (image.getD (i + 1) 0 <<< 48) |||
  (image.getD (i + 2) 0 <<< 40) ||| (image.getD (i + 3) 0 <<< 32) |||
  (image.getD (i + 4) 0 <<< 24) ||| (image.getD (i + 5) 0 <<< 16) |||
  (image.getD (i + 6) 0 <<< 8) ||| image.getD (i + 7) 0

structure GuessState where
  priority : Nat
  guesses : List ty_board_model
deriving DecidableEq, Repr

/-- Inner loop body of `teensy_guess_models` for one signature against the
word `w` read at the current offset. -/
def guess_step (maxOut : Nat) (w : Nat) (st : GuessState) (sig : firmware_signature) :
    GuessState :=
  if w = sig.magic ∧ sig.priority ≥ st.priority then
    let st1 := if sig.priority > st.priority then ⟨sig.priority, []⟩ else st
    if st1.guesses.length < maxOut then ⟨st1.priority, st1.guesses ++ [sig.model]⟩ else st1
  else st

/-- Translation of `teensy_guess_models`: scan offsets `i` with
`i < size - 8` (the C loop condition), fold every signature over the word
read at each offset. Returns the collected guesses. -/
def teensy_guess_models (image : List Nat) (maxOut : Nat) : List ty_board_model :=
  if image.length < 8 then []
  else
    ((List.range (image.length - 8)).foldl
      (fun st i => signatures.foldl (guess_step maxOut (read_be_u64 image i)) st)
      ⟨0, []⟩).guesses

/-- Signatures matched during the scan, in scan order: outer loop over
offsets `i < size - 8`, inner loop over the signature table. -/
def matched_signatures (image : List Nat) : List firmware_signature :=
  if image.length < 8 then []
  else
    (List.range (image.length - 8)).flatMap
      (fun i => signatures.filter (fun sig => read_be_u64 image i == sig.magic))

/-! ## HalfKay protocol engine (`halfkay_send`, `teensy_reset`) -/

/-- Byte at index `k` of the HID report assembled by `halfkay_send`, for the
given protocol variant: the 2048-byte buffer is zero-initialised, the header
bytes hold the address parts and the payload is copied at offset 3 (V1, V2)
or 65 (V3). -/
def halfkay_frame_byte (version addr : Nat) (data : List Nat) (k : Nat) : Nat :=
  match version with
  | 1 =>
    if k = 1 then addr % 256
    else if k = 2 then addr / 2 ^ 8 % 256
    else if 3 ≤ k ∧ k < 3 + data.length then data.getD (k - 3) 0
    else 0
  | 2 =>
    if k = 1 then addr / 2 ^ 8 % 256
    else if k = 2 then addr / 2 ^ 16 % 256
    else if 3 ≤ k ∧ k < 3 + data.length then data.getD (k - 3) 0
    else 0
  | 3 =>
    if k = 1 then addr % 256
    else if k = 2 then addr / 2 ^ 8 % 256
    else if k = 3 then addr / 2 ^ 16 % 256
    else if 65 ≤ k ∧ k < 65 + data.length then data.getD (k - 65) 0
    else 0
  | _ => 0

/-- The report written by `halfkay_send`: its length is `block_size + 3`
(V1, V2) or `block_size + 65` (V3) and its bytes are `halfkay_frame_byte`. -/
def halfkay_send (version block_size addr : Nat) (data : List Nat) : List Nat :=
  let total := if version = 3 then block_size + 65 else block_size + 3
  (List.range total).map (halfkay_frame_byte version addr data)

inductive HalfKayOutcome where
  | sent (report : List Nat) (timeout : Nat)
  | unsupported
deriving DecidableEq, Repr

/-- Translation of `test_bootloader_support`: experimental models are refused
unless the TY_EXPERIMENTAL_BOARDS environment variable is set (the
environment is passed in as `envExperimental`). -/
def test_bootloader_support (model : ty_board_model) (envExperimental : Bool) : Bool :=
  !(model.experimental && !envExperimental)

/-- Translation of `teensy_reset`: after the experimental gate, send the
frame for address 0xFFFFFF with empty payload and a 250 ms per-block
deadline. -/
def teensy_reset (model : ty_board_model) (envExperimental : Bool) : HalfKayOutcome :=
  if test_bootloader_support model envExperimental then
    .sent (halfkay_send model.halfkay_version model.block_size 0xFFFFFF []) 250
  else .unsupported

/-! ## Earlier-generation board manager (`src/src/board.c`)

This file is an older generation of the library: firmware images carry a
single guessed model (`ty_board_test_firmware` returns the first signature
hit), and `ty_board_upload` drives the host-side checks. Only the parts the
properties below observe are modelled. -/

namespace boardc

/-- Modelled from the spec: the earlier-generation model registry entry for
Teensy 3.0 (its board definition file is not among the sources); the spec
gives code_size = 131072 for this model, and `board.c` carries its signature
bytes. Only the non-experimental build is modelled, in which Teensy 3.0 is
the sole registry entry. -/
structure ty_board_model where
  name : String
  code_size : Nat
deriving DecidableEq, Repr

def teensy_30_model : ty_board_model := ⟨"Teensy 3.0", 131072⟩

structure firmware_signature where
  model : ty_board_model
  magic : List Nat
deriving DecidableEq, Repr

def signatures : List firmware_signature :=
  [⟨teensy_30_model, [0x38, 0x80, 0x04, 0x40, 0x82, 0x3F, 0x04, 0x00]⟩]

structure ty_firmware where
  image : List Nat
deriving DecidableEq, Repr

/-- Translation of `ty_board_test_firmware`: return the model of the first
signature whose 8 magic bytes occur at some offset `i < size - 8` (the C
loop condition), scanning offsets outermost. -/
def ty_board_test_firmware (f : ty_firmware) : Option ty_board_model :=
  let magic_size := 8
  if f.image.length < magic_size then none
  else
    (List.range (f.image.length - magic_size)).findSome?
      (fun i =>
        (signatures.find? (fun sig => (f.image.drop i).take magic_size == sig.magic)).map
          (fun sig => sig.model))

structure ty_board_mode where
  name : String
  capabilities : Nat
deriving DecidableEq, Repr

structure ty_board where
  mode : Option ty_board_mode
  model : ty_board_model
  serial : Nat
deriving DecidableEq, Repr

/-- Translation of `ty_board_get_capabilities`: a board without a mode has no
capabilities, otherwise the mode's capability mask. -/
def ty_board_get_capabilities (b : ty_board) : Nat :=
  match b.mode with
  | none => 0
  | some mode => mode.capabilities

/-- Modelled from the spec: `ty_board_has_capability` is declared in
`ty/board.h`, which is not among the sources; the spec exposes it as the
membership test of a capability in the board's capability set. -/
def ty_board_has_capability (b : ty_board) (cap : Nat) : Bool :=
  (ty_board_get_capabilities b) &&& (1 <<< cap) != 0

/-- Modelled from the spec: the NOCHECK upload flag bit (`ty/board.h` is not
among the sources); only its distinctness from 0 is observable. -/
def TY_BOARD_UPLOAD_NOCHECK : Nat := 1

inductive UploadResult where
  | started
  | err_mode
  | err_range
  | err_firmware
deriving DecidableEq, Repr

/-- Translation of `ty_board_upload` up to the handoff to the mode vtable:
`started` means every host-side check passed and the block-wise upload was
invoked. -/
def ty_board_upload (b : ty_board) (f : ty_firmware) (flags : Nat) : UploadResult :=
  if !ty_board_has_capability b TY_BOARD_CAPABILITY_UPLOAD then .err_mode
  else if f.image.length > b.model.code_size then .err_range
  else if flags &&& TY_BOARD_UPLOAD_NOCHECK == 0 then
    match ty_board_test_firmware f with
    | none => .err_firmware
    | some guess =>
      if !ty_board_has_capability b TY_BOARD_CAPABILITY_IDENTIFY then .err_mode
      else if guess ≠ b.model then .err_firmware
      else .started
  else .started

end boardc

/-! ## Board monitor (`src/libty/monitor.c`)

The aggregator state: an ordered list of active boards, the drop queue of
missing boards (board ids ordered by missing_since, oldest first), and a
fresh-id counter standing in for board object identity. The interface hash
table keyed by device pointer is represented implicitly: an interface is
indexed exactly while it sits on some board's interface list, and lookup by
device id scans boards in list order. Time (`ty_millis`) is passed in
explicitly; the one-shot drop timer is represented by the rearm flag its
`ty_timer_rearm` read-and-clear returns, supplied by the environment. -/

def DROP_BOARD_DELAY : Nat := 15000

inductive ty_board_state where
  | dropped
  | missing
  | online
deriving DecidableEq, Repr

inductive ty_monitor_event where
  | added
  | changed
  | disappeared
  | dropped
deriving DecidableEq, Repr

structure ty_board_interface where
  dev : HsDevice
  name : String
  model : ty_board_model
  serial : Nat
  capabilities : Nat
deriving DecidableEq, Repr

structure ty_board where
  bid : Nat
  location : String
  model : ty_board_model
  serial : Nat
  vid : Nat
  pid : Nat
  id : String
  state : ty_board_state
  capabilities : Nat
  interfaces : List ty_board_interface
  missing_since : Nat
deriving DecidableEq, Repr

structure ty_monitor where
  nextId : Nat
  boards : List ty_board
  missing_boards : List Nat
deriving DecidableEq, Repr

def ty_monitor_new : ty_monitor := ⟨0, [], []⟩

/-- Bitwise union of the capabilities of a list of interfaces, as computed by
the rebuild loop in `remove_interface`. -/
def unionCaps (l : List ty_board_interface) : Nat :=
  l.foldl (fun acc iface => acc ||| iface.capabilities) 0

/-- Translation of `open_new_interface`: the serial number string is parsed
with `strtoull(serial, NULL, 10)` whatever the device mode, and the family
classifier fills in name, model and capabilities or rejects the device. -/
def open_new_interface (dev : HsDevice) : Option ty_board_interface :=
  let serial := match dev.serialNumberString with
    | some s => strtoull 10 s
    | none => 0
  match teensy_load_interface dev with
  | none => none
  | some li => some ⟨dev, li.name, li.model, serial, li.capabilities⟩

/-- Translation of `iface_is_compatible`. -/
def iface_is_compatible (iface : ty_board_interface) (board : ty_board) : Bool :=
  if ty_board_model_is_real iface.model && ty_board_model_is_real board.model &&
       iface.model != board.model then false
  else if iface.serial != 0 && board.serial != 0 && iface.serial != board.serial then false
  else true

def find_board (m : ty_monitor) (location : String) : Option ty_board :=
  m.boards.find? (fun b => b.location == location)

def lookupBoard (m : ty_monitor) (bid : Nat) : Option ty_board :=
  m.boards.find? (fun b => b.bid == bid)

/-- Apply `f` to the board(s) carrying the given id. -/
def mapBoard (m : ty_monitor) (bid : Nat) (f : ty_board → ty_board) : ty_monitor :=
  { m with boards := m.boards.map (fun b => if b.bid = bid then f b else b) }

/-- Effect of `close_board` on the board record: interfaces drained,
cap2iface and capabilities zeroed, state set to MISSING. -/
def close_board_f (b : ty_board) : ty_board :=
  { b with interfaces := [], capabilities := 0, state := .missing }

/-- Translation of `close_board`: drain the interfaces (which also removes
them from the monitor's interface index), clear the capabilities, mark the
board MISSING and dispatch DISAPPEARED. -/
def close_board (m : ty_monitor) (bid : Nat) : ty_monitor × List (Nat × ty_monitor_event) :=
  (mapBoard m bid close_board_f, [(bid, .disappeared)])

/-- Translation of `drop_board`: leave the drop queue, dispatch DROPPED and
leave the active board list. -/
def drop_board (m : ty_monitor) (bid : Nat) : ty_monitor × List (Nat × ty_monitor_event) :=
  ({ m with
      boards := m.boards.filter (fun b => b.bid ≠ bid),
      missing_boards := m.missing_boards.filter (fun b => b ≠ bid) },
   [(bid, .dropped)])

/-- Translation of `add_missing_board`: stamp missing_since with the current
time and (re)append the board to the tail of the drop queue. The timer
arming it performs is part of the environment (see `ty_monitor_refresh`). -/
def add_missing_board (m : ty_monitor) (bid : Nat) (now : Nat) : ty_monitor :=
  let m := mapBoard m bid (fun b => { b with missing_since := now })
  { m with missing_boards := m.missing_boards.filter (fun b => b ≠ bid) ++ [bid] }

/-- Tail of `add_interface` common to both branches: attach the interface to
the board (interface list append, capability union, cap2iface update),
remove the board from the drop queue if present, set it ONLINE and dispatch
the event. -/
def finish_add_interface (m : ty_monitor) (bid : Nat) (iface : ty_board_interface)
    (evs : List (Nat × ty_monitor_event)) (event : ty_monitor_event) :
    ty_monitor × List (Nat × ty_monitor_event) :=
  let m := mapBoard m bid (fun b =>
    { b with
        interfaces := b.interfaces ++ [iface],
        capabilities := b.capabilities ||| iface.capabilities })
  let m := { m with missing_boards := m.missing_boards.filter (fun b => b ≠ bid) }
  let m := mapBoard m bid (fun b => { b with state := .online })
  (m, evs ++ [(bid, event)])

/-- Translation of `add_board`: a fresh board built from the interface, with
id string "{serial}-{family name}", appended to the active list. The zero
state left by calloc is overwritten with ONLINE before `add_interface`
returns. -/
def add_board (m : ty_monitor) (iface : ty_board_interface) : ty_monitor × Nat :=
  let board : ty_board :=
    { bid := m.nextId,
      location := iface.dev.location,
      model := iface.model,
      serial := iface.serial,
      vid := iface.dev.vid,
      pid := iface.dev.pid,
      id := toString iface.serial ++ "-Teensy",
      state := .dropped,
      capabilities := 0,
      interfaces := [],
      missing_since := 0 }
  ({ m with nextId := m.nextId + 1, boards := m.boards ++ [board] }, m.nextId)

/-- Branch of `add_interface` reusing a compatible board at the device's
location: if the vid/pid changed, the board is closed first (when ONLINE) and
its vid/pid updated; a real interface model and a non-zero interface serial
overwrite the board's; the event dispatched is CHANGED. -/
def add_interface_existing (m : ty_monitor) (dev : HsDevice) (board : ty_board)
    (iface : ty_board_interface) : ty_monitor × List (Nat × ty_monitor_event) :=
  let (m1, e1) :=
    if board.vid ≠ dev.vid ∨ board.pid ≠ dev.pid then
      let (ma, ea) :=
        if board.state = .online then close_board m board.bid else (m, [])
      (mapBoard ma board.bid (fun b => { b with vid := dev.vid, pid := dev.pid }), ea)
    else (m, [])
  let m2 := mapBoard m1 board.bid (fun b =>
    let b := if ty_board_model_is_real iface.model then { b with model := iface.model } else b
    if iface.serial ≠ 0 then { b with serial := iface.serial } else b)
  finish_add_interface m2 board.bid iface e1 .changed

/-- Branch of `add_interface` creating a new board for the interface; the
event dispatched is ADDED, after any events of a heuristic drop. -/
def add_interface_new (m : ty_monitor) (iface : ty_board_interface)
    (evs : List (Nat × ty_monitor_event)) : ty_monitor × List (Nat × ty_monitor_event) :=
  let (m1, bid) := add_board m iface
  finish_add_interface m1 bid iface evs .added

/-- Translation of `add_interface`: classify the device; an incompatible
board at the same location is closed (if ONLINE) and dropped immediately; a
compatible board is reused; otherwise a new board is created. The interface
is then attached and the board goes ONLINE. -/
def add_interface (m : ty_monitor) (dev : HsDevice) :
    ty_monitor × List (Nat × ty_monitor_event) :=
  match open_new_interface dev with
  | none => (m, [])
  | some iface =>
    match find_board m dev.location with
    | some board =>
      if iface_is_compatible iface board then
        add_interface_existing m dev board iface
      else
        let (m1, e1) :=
          if board.state = .online then close_board m board.bid else (m, [])
        let (m2, e2) := drop_board m1 board.bid
        add_interface_new m2 iface (e1 ++ e2)
    | none => add_interface_new m iface []

/-- First interface with the given device id on a board's list, removed. -/
def removeFirstIface : List ty_board_interface → Nat → List ty_board_interface
  | [], _ => []
  | iface :: rest, devId =>
    if iface.dev.devId = devId then rest else iface :: removeFirstIface rest devId

/-- Lookup in the monitor's interface index: the first attached interface
with the given device id, with its owning board. -/
def find_interface (m : ty_monitor) (devId : Nat) : Option (ty_board × ty_board_interface) :=
  m.boards.findSome? (fun b =>
    (b.interfaces.find? (fun iface => iface.dev.devId == devId)).map (fun iface => (b, iface)))

/-- Translation of `remove_interface`: detach the interface, rebuild
cap2iface and the capability union from the remaining interfaces, and either
close the board and enqueue it on the drop queue (last interface gone) or
dispatch CHANGED. -/
def remove_interface (m : ty_monitor) (devId : Nat) (now : Nat) :
    ty_monitor × List (Nat × ty_monitor_event) :=
  match find_interface m devId with
  | none => (m, [])
  | some (board, _) =>
    if (removeFirstIface board.interfaces devId).isEmpty then
      let m1 := mapBoard m board.bid (fun b =>
        { b with interfaces := removeFirstIface board.interfaces devId,
                 capabilities := unionCaps (removeFirstIface board.interfaces devId) })
      let (m2, evs) := close_board m1 board.bid
      (add_missing_board m2 board.bid now, evs)
    else
      (mapBoard m board.bid (fun b =>
        { b with interfaces := removeFirstIface board.interfaces devId,
                 capabilities := unionCaps (removeFirstIface board.interfaces devId) }),
       [(board.bid, .changed)])

/-- Translation of `ty_adjust_timeout` for a non-negative timeout:
max(0, start + timeout - now). -/
def ty_adjust_timeout (timeout start now : Nat) : Nat :=
  if start + timeout ≤ now then 0 else start + timeout - now

/-- Drop-queue walk of `ty_monitor_refresh`: drop boards from the head of the
queue while their grace period has fully elapsed; stop (and re-arm the
timer) at the first board whose adjusted timeout is non-zero. -/
def refresh_drops_go (m : ty_monitor) (queue : List Nat) (now : Nat) :
    ty_monitor × List (Nat × ty_monitor_event) :=
  match queue with
  | [] => (m, [])
  | bid :: rest =>
    match lookupBoard m bid with
    | none => (m, [])
    | some board =>
      if ty_adjust_timeout DROP_BOARD_DELAY board.missing_since now ≠ 0 then (m, [])
      else
        let (m1, e1) := drop_board m bid
        let (m2, e2) := refresh_drops_go m1 rest now
        (m2, e1 ++ e2)

/-- Timer half of `ty_monitor_refresh` (the hotplug pump delivers the
device events modelled as separate trace operations): when `ty_timer_rearm`
reports the timer fired, walk the drop queue. -/
def ty_monitor_refresh (m : ty_monitor) (timerFired : Bool) (now : Nat) :
    ty_monitor × List (Nat × ty_monitor_event) :=
  if timerFired then refresh_drops_go m m.missing_boards now else (m, [])

/-- Translation of the callback loop of `ty_monitor_list`: walk the active
board list; for each ONLINE board invoke the callback with event ADDED; a
non-zero return stops the walk. Returns the calls made, in order. -/
def ty_monitor_list_go (g : ty_board → Int) : List ty_board → List (Nat × ty_monitor_event)
  | [] => []
  | b :: rest =>
    if b.state = .online then
      (b.bid, .added) :: (if g b ≠ 0 then [] else ty_monitor_list_go g rest)
    else ty_monitor_list_go g rest

def ty_monitor_list (m : ty_monitor) (g : ty_board → Int) : List (Nat × ty_monitor_event) :=
  ty_monitor_list_go g m.boards

/-! ### Event traces -/

inductive MonOp where
  | add (dev : HsDevice)
  | remove (devId : Nat)
  | refresh (timerFired : Bool)
deriving DecidableEq, Repr

def monStep (m : ty_monitor) (op : MonOp) (now : Nat) :
    ty_monitor × List (Nat × ty_monitor_event) :=
  match op with
  | .add dev => add_interface m dev
  | .remove devId => remove_interface m devId now
  | .refresh timerFired => ty_monitor_refresh m timerFired now

/-- Run a timed trace of operations, collecting the dispatched events as
(time, board id, event) triples. -/
def runTrace (m : ty_monitor) : List (Nat × MonOp) → ty_monitor × List (Nat × Nat × ty_monitor_event)
  | [] => (m, [])
  | (t, op) :: rest =>
    let (m1, evs) := monStep m op t
    let (m2, evs2) := runTrace m1 rest
    (m2, evs.map (fun e => (t, e.1, e.2)) ++ evs2)

/-! ## Serial-number parsing properties -/

/-- Claim C7: for a bootloader-mode serial string the parser reads base 16;
a parsed value of 100 gives 0; otherwise a value below 10,000,000 is
multiplied by 10 and larger values are returned as is; an absent string
yields 12345. Concretely, "00000ABC" (hex 2748) parses to 27480 and
"00000064" (hex 100) parses to 0. -/
theorem claim_C7_bootloader_serial :
    parse_bootloader_serial none = 12345 ∧
    strtoull 16 "00000ABC" = 2748 ∧
    parse_bootloader_serial (some "00000ABC") = 27480 ∧
    strtoull 16 "00000064" = 100 ∧
    parse_bootloader_serial (some "00000064") = 0 ∧
    (∀ s : String, strtoull 16 s = 100 → parse_bootloader_serial (some s) = 0) ∧
    (∀ s : String, strtoull 16 s ≠ 100 → strtoull 16 s < 10000000 →
      parse_bootloader_serial (some s) = strtoull 16 s * 10) ∧
    (∀ s : String, 10000000 ≤ strtoull 16 s →
      parse_bootloader_serial (some s) = strtoull 16 s) := by
  refine ⟨by decide, by decide, by decide, by decide, by decide, ?_, ?_, ?_⟩
  · intro s h
    simp [parse_bootloader_serial, h]
  · intro s h1 h2
    simp [parse_bootloader_serial, h1, h2]
  · intro s h
    have h1 : strtoull 16 s ≠ 100 := by omega
    have h2 : ¬ strtoull 16 s < 10000000 := by omega
    simp [parse_bootloader_serial, h1, h2]

/-- Witness for claim C7: the value 10 (hex "0000000A") is below 10,000,000
and distinct from 100, so the parser returns it multiplied by 10. -/
theorem claim_C7_witness :
    parse_bootloader_serial (some "0000000A") = strtoull 16 "0000000A" * 10 ∧
    strtoull 16 "0000000A" * 10 = 100 :=
  ⟨claim_C7_bootloader_serial.2.2.2.2.2.2.1 "0000000A" (by decide) (by decide), by decide⟩

/-- Counterexample for claim C8: parsing "0012345" does not return 12345.
Both serial parsers read the string in base 16 (0x12345 = 74565) and apply
the times-10 workaround, yielding 745650. -/
theorem claim_C8_counterexample :
    parse_bootloader_serial (some "0012345") = 745650 ∧
    parse_serial_number (some "0012345") = 745650 ∧
    (745650 : Nat) ≠ 12345 := by
  refine ⟨by decide, by decide, by decide⟩

/-- Claim C8 as amended: "0012345" is parsed in base 16 (not octal, not
decimal): the hex value is 74565, both parsers return 74565 × 10 = 745650,
which differs from the octal reading 5349 and from the decimal reading
12345. -/
theorem claim_C8_hex_not_octal :
    strtoull 16 "0012345" = 74565 ∧
    parse_bootloader_serial (some "0012345") = 74565 * 10 ∧
    parse_serial_number (some "0012345") = 74565 * 10 ∧
    strtoull 8 "0012345" = 5349 ∧
    strtoull 10 "0012345" = 12345 ∧
    (74565 * 10 : Nat) ≠ 5349 ∧
    (74565 * 10 : Nat) ≠ 12345 := by
  refine ⟨by decide, by decide, by decide, by decide, by decide, by decide, by decide⟩

/-! ## HalfKay frame layout properties -/

lemma getD_map_range (f : Nat → Nat) (n k : Nat) :
    ((List.range n).map f).getD k 0 = if k < n then f k else 0 := by
  rw [List.getD_eq_getElem?_getD, List.getElem?_map]
  by_cases h : k < n
  · simp [List.getElem?_range h, h]
  · rw [List.getElem?_eq_none (by simpa using h)]
    simp [h]

lemma halfkay_send_getD_v1 (block_size addr k : Nat) (data : List Nat) :
    (halfkay_send 1 block_size addr data).getD k 0 =
    if k < block_size + 3 then halfkay_frame_byte 1 addr data k else 0 := by
  rw [halfkay_send, getD_map_range]
  norm_num

lemma halfkay_send_getD_v2 (block_size addr k : Nat) (data : List Nat) :
    (halfkay_send 2 block_size addr data).getD k 0 =
    if k < block_size + 3 then halfkay_frame_byte 2 addr data k else 0 := by
  rw [halfkay_send, getD_map_range]
  norm_num

lemma halfkay_send_getD_v3 (block_size addr k : Nat) (data : List Nat) :
    (halfkay_send 3 block_size addr data).getD k 0 =
    if k < block_size + 65 then halfkay_frame_byte 3 addr data k else 0 := by
  rw [halfkay_send, getD_map_range]
  norm_num

/-- Claim C5: the frame built for a block write is zero-initialised with the
layout of the protocol variant — V1 has addr bits 7:0 at buf[1] and 15:8 at
buf[2] with payload at offset 3 and length block_size + 3; V2 has addr bits
15:8 at buf[1] and 23:16 at buf[2] with payload at offset 3 and length
block_size + 3; V3 has addr bits 7:0, 15:8, 23:16 at buf[1..3] with payload
at offset 65 and length block_size + 65 — and a reset sends the frame for
address 0xFFFFFF with empty payload under a 250 ms deadline. -/
theorem claim_C5_halfkay_frames (block_size addr : Nat) (data : List Nat)
    (hlen : data.length ≤ block_size) :
    ((halfkay_send 1 block_size addr data).length = block_size + 3 ∧
     (halfkay_send 1 block_size addr data).getD 1 0 = addr % 256 ∧
     (halfkay_send 1 block_size addr data).getD 2 0 = addr / 2 ^ 8 % 256 ∧
     (∀ j, j < data.length →
        (halfkay_send 1 block_size addr data).getD (3 + j) 0 = data.getD j 0) ∧
     (∀ k, k ≠ 1 → k ≠ 2 → ¬(3 ≤ k ∧ k < 3 + data.length) →
        (halfkay_send 1 block_size addr data).getD k 0 = 0)) ∧
    ((halfkay_send 2 block_size addr data).length = block_size + 3 ∧
     (halfkay_send 2 block_size addr data).getD 1 0 = addr / 2 ^ 8 % 256 ∧
     (halfkay_send 2 block_size addr data).getD 2 0 = addr / 2 ^ 16 % 256 ∧
     (∀ j, j < data.length →
        (halfkay_send 2 block_size addr data).getD (3 + j) 0 = data.getD j 0) ∧
     (∀ k, k ≠ 1 → k ≠ 2 → ¬(3 ≤ k ∧ k < 3 + data.length) →
        (halfkay_send 2 block_size addr data).getD k 0 = 0)) ∧
    ((halfkay_send 3 block_size addr data).length = block_size + 65 ∧
     (halfkay_send 3 block_size addr data).getD 1 0 = addr % 256 ∧
     (halfkay_send 3 block_size addr data).getD 2 0 = addr / 2 ^ 8 % 256 ∧
     (halfkay_send 3 block_size addr data).getD 3 0 = addr / 2 ^ 16 % 256 ∧
     (∀ j, j < data.length →
        (halfkay_send 3 block_size addr data).getD (65 + j) 0 = data.getD j 0) ∧
     (∀ k, k ≠ 1 → k ≠ 2 → k ≠ 3 → ¬(65 ≤ k ∧ k < 65 + data.length) →
        (halfkay_send 3 block_size addr data).getD k 0 = 0)) ∧
    (∀ model : ty_board_model, ∀ envExperimental : Bool,
       test_bootloader_support model envExperimental = true →
       teensy_reset model envExperimental =
         .sent (halfkay_send model.halfkay_version model.block_size 0xFFFFFF []) 250) := by
  refine ⟨⟨?_, ?_, ?_, ?_, ?_⟩, ⟨?_, ?_, ?_, ?_, ?_⟩, ⟨?_, ?_, ?_, ?_, ?_, ?_⟩, ?_⟩
  · simp [halfkay_send]
  · rw [halfkay_send_getD_v1, if_pos (by omega)]
    simp [halfkay_frame_byte]
  · rw [halfkay_send_getD_v1, if_pos (by omega)]
    simp [halfkay_frame_byte]
  · intro j hj
    rw [halfkay_send_getD_v1, if_pos (by omega)]
    simp only [halfkay_frame_byte]
    rw [if_neg (by omega), if_neg (by omega), if_pos (by omega)]
    congr 1
    omega
  · intro k h1 h2 h3
    rw [halfkay_send_getD_v1]
    by_cases hk : k < block_size + 3
    · rw [if_pos hk]
      simp only [halfkay_frame_byte]
      rw [if_neg h1, if_neg h2, if_neg h3]
    · rw [if_neg hk]
  · simp [halfkay_send]
  · rw [halfkay_send_getD_v2, if_pos (by omega)]
    simp [halfkay_frame_byte]
  · rw [halfkay_send_getD_v2, if_pos (by omega)]
    simp [halfkay_frame_byte]
  · intro j hj
    rw [halfkay_send_getD_v2, if_pos (by omega)]
    simp only [halfkay_frame_byte]
    rw [if_neg (by omega), if_neg (by omega), if_pos (by omega)]
    congr 1
    omega
  · intro k h1 h2 h3
    rw [halfkay_send_getD_v2]
    by_cases hk : k < block_size + 3
    · rw [if_pos hk]
      simp only [halfkay_frame_byte]
      rw [if_neg h1, if_neg h2, if_neg h3]
    · rw [if_neg hk]
  · simp [halfkay_send]
  · rw [halfkay_send_getD_v3, if_pos (by omega)]
    simp [halfkay_frame_byte]
  · rw [halfkay_send_getD_v3, if_pos (by omega)]
    simp [halfkay_frame_byte]
  · rw [halfkay_send_getD_v3, if_pos (by omega)]
    simp [halfkay_frame_byte]
  · intro j hj
    rw [halfkay_send_getD_v3, if_pos (by omega)]
    simp only [halfkay_frame_byte]
    rw [if_neg (by omega), if_neg (by omega), if_neg (by omega), if_pos (by omega)]
    congr 1
    omega
  · intro k h1 h2 h3 h4
    rw [halfkay_send_getD_v3]
    by_cases hk : k < block_size + 65
    · rw [if_pos hk]
      simp only [halfkay_frame_byte]
      rw [if_neg h1, if_neg h2, if_neg h3, if_neg h4]
    · rw [if_neg hk]
  · intro model env h
    simp [teensy_reset, h]

/-- Witness for claim C5: a concrete V3 block for address 0x123456 with a
two-byte payload on a 4-byte block, and the Teensy 3.0 reset frame. -/
theorem claim_C5_witness :
    ([9, 8] : List Nat).length ≤ 4 ∧
    (halfkay_send 3 4 0x123456 [9, 8]).getD 3 0 = 0x123456 / 2 ^ 16 % 256 ∧
    (halfkay_send 3 4 0x123456 [9, 8]).getD 65 0 = ([9, 8] : List Nat).getD 0 0 ∧
    teensy_reset teensy_30_model false =
      .sent (halfkay_send teensy_30_model.halfkay_version teensy_30_model.block_size 0xFFFFFF []) 250 := by
  have h := claim_C5_halfkay_frames 4 0x123456 [9, 8] (by decide)
  exact ⟨by decide, h.2.2.1.2.2.2.1,
         h.2.2.1.2.2.2.2.1 0 (by decide),
         h.2.2.2 teensy_30_model false (by decide)⟩

/-! ## Bootloader interface classification properties -/

/-- Counterexample for claim C6: a bootloader-page HID device (VID 0x16C0,
PID 0x478, usage page 0xFF9C) whose usage 0x99 matches no model is NOT
rejected: the classifier produces an interface named "HalfKay" with the
unknown-model sentinel and an empty capability set, and `open_new_interface`
accepts it. -/
theorem claim_C6_counterexample :
    identify_model 0x99 = none ∧
    teensy_load_interface ⟨1, "usb1", 0x16C0, 0x478, .hid, 0xFF9C, 0x99, none⟩ =
      some ⟨"HalfKay", teensy_unknown_model, 0⟩ ∧
    (open_new_interface ⟨1, "usb1", 0x16C0, 0x478, .hid, 0xFF9C, 0x99, none⟩).isSome = true := by
  refine ⟨by decide, by decide, by decide⟩

/-- Claim C6 as amended: for a HID device with VID 0x16C0, an accepted PID
and bootloader usage page 0xFF9C, a usage id matching a model in the
registry yields an interface named "HalfKay" with that model and exactly
the capabilities UPLOAD and RESET; a usage id matching no model still yields
an interface named "HalfKay", with the unknown-model sentinel and an empty
capability set (the device is not rejected). -/
theorem claim_C6_bootloader_classification (dev : HsDevice)
    (hvid : dev.vid = TEENSY_VID) (hpid : teensy_pid_ok dev.pid = true)
    (htype : dev.devType = .hid) (hpage : dev.usagePage = TEENSY_USAGE_PAGE_BOOTLOADER) :
    (∀ mdl, identify_model dev.usage = some mdl →
       teensy_load_interface dev =
         some ⟨"HalfKay", mdl,
               (1 <<< TY_BOARD_CAPABILITY_UPLOAD) ||| (1 <<< TY_BOARD_CAPABILITY_RESET)⟩) ∧
    (identify_model dev.usage = none →
       teensy_load_interface dev = some ⟨"HalfKay", teensy_unknown_model, 0⟩) := by
  constructor
  · intro mdl hm
    simp [teensy_load_interface, hvid, hpid, htype, hpage, hm]
  · intro hm
    simp [teensy_load_interface, hvid, hpid, htype, hpage, hm]

/-- Witness for claim C6: usage 0x1D identifies Teensy 3.0 and the
classifier grants exactly UPLOAD and RESET. -/
theorem claim_C6_witness :
    teensy_load_interface ⟨2, "usb1", 0x16C0, 0x478, .hid, 0xFF9C, 0x1D, none⟩ =
      some ⟨"HalfKay", teensy_30_model,
            (1 <<< TY_BOARD_CAPABILITY_UPLOAD) ||| (1 <<< TY_BOARD_CAPABILITY_RESET)⟩ :=
  (claim_C6_bootloader_classification ⟨2, "usb1", 0x16C0, 0x478, .hid, 0xFF9C, 0x1D, none⟩
    (by decide) (by decide) (by decide) (by decide)).1 teensy_30_model (by decide)

/-! ## Upload host-side check properties (`src/src/board.c`) -/

/-- Counterexample for claim C4: a 16-byte all-zero firmware matches no
signature, yet `ty_board_upload` without NOCHECK returns the FIRMWARE error
instead of passing the check, on a board with the UPLOAD (and IDENTIFY)
capability, model Teensy 3.0 and a size well below code_size. -/
theorem claim_C4_counterexample :
    boardc.ty_board_test_firmware ⟨List.replicate 16 0⟩ = none ∧
    boardc.ty_board_upload
      ⟨some ⟨"bootloader",
             (1 <<< TY_BOARD_CAPABILITY_UPLOAD) ||| (1 <<< TY_BOARD_CAPABILITY_IDENTIFY)⟩,
       boardc.teensy_30_model, 0⟩
      ⟨List.replicate 16 0⟩ 0 = .err_firmware := by
  refine ⟨by decide, by decide⟩

/-- Claim C4 as amended: without the UPLOAD capability the upload returns
MODE; with it, RANGE is returned iff the firmware size strictly exceeds
model.code_size (size = code_size passes); when the size check passes, a set
NOCHECK flag bypasses every firmware check and the upload starts; with
NOCHECK clear, a firmware matching no signature errors FIRMWARE, a board
without the IDENTIFY capability errors MODE, a guessed model different from
the board's errors FIRMWARE, and otherwise the upload starts. -/
theorem claim_C4_upload_checks (b : boardc.ty_board) (f : boardc.ty_firmware) (flags : Nat) :
    (boardc.ty_board_has_capability b TY_BOARD_CAPABILITY_UPLOAD = false →
       boardc.ty_board_upload b f flags = .err_mode) ∧
    (boardc.ty_board_has_capability b TY_BOARD_CAPABILITY_UPLOAD = true →
      ((boardc.ty_board_upload b f flags = .err_range ↔ f.image.length > b.model.code_size) ∧
       (f.image.length ≤ b.model.code_size → flags &&& boardc.TY_BOARD_UPLOAD_NOCHECK ≠ 0 →
          boardc.ty_board_upload b f flags = .started) ∧
       (f.image.length ≤ b.model.code_size → flags &&& boardc.TY_BOARD_UPLOAD_NOCHECK = 0 →
          boardc.ty_board_upload b f flags =
            match boardc.ty_board_test_firmware f with
            | none => .err_firmware
            | some guess =>
              if boardc.ty_board_has_capability b TY_BOARD_CAPABILITY_IDENTIFY = false
                then .err_mode
              else if guess ≠ b.model then .err_firmware
              else .started))) := by
  constructor
  · intro h
    simp [boardc.ty_board_upload, h]
  · intro h
    refine ⟨?_, ?_, ?_⟩
    · constructor
      · intro hr
        by_contra hgt
        push_neg at hgt
        rw [boardc.ty_board_upload] at hr
        simp [h, Nat.not_lt.mpr hgt] at hr
        split at hr
        · split at hr
          · simp_all
          · split at hr
            · simp_all
            · split at hr <;> simp_all
        · simp_all
      · intro hgt
        simp [boardc.ty_board_upload, h, hgt]
    · intro hle hnc
      simp [boardc.ty_board_upload, h, Nat.not_lt.mpr hle, hnc]
    · intro hle hnc
      simp [boardc.ty_board_upload, h, Nat.not_lt.mpr hle, hnc]

/-- Witness for claim C4: a 9-byte firmware holding the Teensy 3.0 signature
at offset 0 passes every check on a Teensy 3.0 board and the upload starts;
with the NOCHECK flag it starts as well. -/
theorem claim_C4_witness :
    boardc.ty_board_upload
      ⟨some ⟨"bootloader",
             (1 <<< TY_BOARD_CAPABILITY_UPLOAD) ||| (1 <<< TY_BOARD_CAPABILITY_IDENTIFY)⟩,
       boardc.teensy_30_model, 0⟩
      ⟨[0x38, 0x80, 0x04, 0x40, 0x82, 0x3F, 0x04, 0x00, 0]⟩ 1 = .started ∧
    boardc.ty_board_upload
      ⟨some ⟨"bootloader",
             (1 <<< TY_BOARD_CAPABILITY_UPLOAD) ||| (1 <<< TY_BOARD_CAPABILITY_IDENTIFY)⟩,
       boardc.teensy_30_model, 0⟩
      ⟨[0x38, 0x80, 0x04, 0x40, 0x82, 0x3F, 0x04, 0x00, 0]⟩ 0 =
      match boardc.ty_board_test_firmware ⟨[0x38, 0x80, 0x04, 0x40, 0x82, 0x3F, 0x04, 0x00, 0]⟩ with
      | none => .err_firmware
      | some guess =>
        if boardc.ty_board_has_capability
             ⟨some ⟨"bootloader",
                    (1 <<< TY_BOARD_CAPABILITY_UPLOAD) ||| (1 <<< TY_BOARD_CAPABILITY_IDENTIFY)⟩,
              boardc.teensy_30_model, 0⟩ TY_BOARD_CAPABILITY_IDENTIFY = false then .err_mode
        else if guess ≠ boardc.teensy_30_model then .err_firmware
        else .started :=
  ⟨((claim_C4_upload_checks _ _ 1).2 (by decide)).2.1 (by decide) (by decide),
   ((claim_C4_upload_checks _ _ 0).2 (by decide)).2.2 (by decide) (by decide)⟩

/-! ## Firmware identification properties -/

/-- Step of the guess fold restricted to signatures whose magic matched the
word read at the current offset. -/
def matched_step (maxOut : Nat) (st : GuessState) (sig : firmware_signature) : GuessState :=
  if sig.priority ≥ st.priority then
    let st1 := if sig.priority > st.priority then ⟨sig.priority, []⟩ else st
    if st1.guesses.length < maxOut then ⟨st1.priority, st1.guesses ++ [sig.model]⟩ else st1
  else st

lemma matched_step_priority (maxOut : Nat) (st : GuessState) (s : firmware_signature) :
    (matched_step maxOut st s).priority = max st.priority s.priority := by
  by_cases h1 : s.priority ≥ st.priority
  · rw [max_eq_right h1]
    simp only [matched_step, if_pos h1]
    by_cases h2 : s.priority > st.priority
    · simp only [if_pos h2]
      split <;> rfl
    · have he : st.priority = s.priority := le_antisymm h1 (by omega)
      simp only [if_neg h2]
      split <;> simp [he]
  · rw [max_eq_left (by omega)]
    simp only [matched_step, if_neg h1]

/-- Soundness of the priority fold: the final priority is the maximum of the
processed priorities, and each collected model stems either from the initial
state (if no strictly larger priority was seen) or from a processed
signature whose priority equals the final one. -/
lemma matched_fold_spec (maxOut : Nat) (l : List firmware_signature) (st : GuessState) :
    (l.foldl (matched_step maxOut) st).priority =
      l.foldl (fun a s => max a s.priority) st.priority ∧
    (∀ mdl ∈ (l.foldl (matched_step maxOut) st).guesses,
      (mdl ∈ st.guesses ∧
        (l.foldl (matched_step maxOut) st).priority = st.priority) ∨
      (∃ s ∈ l, s.model = mdl ∧
        s.priority = (l.foldl (matched_step maxOut) st).priority)) := by
  induction l generalizing st with
  | nil => simp
  | cons s rest ih =>
    have hstep := matched_step_priority maxOut st s
    obtain ⟨ihp, ihg⟩ := ih (matched_step maxOut st s)
    constructor
    · simp only [List.foldl_cons]
      rw [ihp, hstep]
    · intro mdl hmdl
      simp only [List.foldl_cons] at hmdl ⊢
      rcases ihg mdl hmdl with ⟨hmem, hprio⟩ | ⟨t, ht, htm, htp⟩
      · rw [hstep] at hprio
        simp only [matched_step] at hmem
        by_cases h1 : s.priority ≥ st.priority
        · rw [if_pos h1] at hmem
          by_cases h2 : s.priority > st.priority
          · simp only [if_pos h2] at hmem
            split at hmem
            · simp only [List.nil_append, List.mem_singleton] at hmem
              right
              refine ⟨s, by simp, hmem.symm, ?_⟩
              rw [hprio, max_eq_right h1]
            · simp at hmem
          · have he : st.priority = s.priority := le_antisymm h1 (by omega)
            simp only [if_neg h2] at hmem
            split at hmem
            · simp only [List.mem_append, List.mem_singleton] at hmem
              rcases hmem with hmem | hmem
              · left
                exact ⟨hmem, by rw [hprio, max_eq_right h1, he]⟩
              · right
                refine ⟨s, by simp, hmem.symm, ?_⟩
                rw [hprio, max_eq_right h1]
            · left
              exact ⟨hmem, by rw [hprio, max_eq_right h1, he]⟩
        · rw [if_neg h1] at hmem
          left
          exact ⟨hmem, by rw [hprio, max_eq_left (by omega)]⟩
      · right
        exact ⟨t, by simp [ht], htm, htp⟩

lemma guess_step_filter (maxOut w : Nat) (sigs : List firmware_signature) (st : GuessState) :
    sigs.foldl (guess_step maxOut w) st =
    (sigs.filter (fun sig => w == sig.magic)).foldl (matched_step maxOut) st := by
  induction sigs generalizing st with
  | nil => rfl
  | cons sig rest ih =>
    by_cases h : w = sig.magic
    · have hb : (w == sig.magic) = true := by simpa using h
      simp only [List.foldl_cons, List.filter_cons, hb, if_pos, List.foldl_cons]
      rw [show guess_step maxOut w st sig = matched_step maxOut st sig from by
        simp [guess_step, matched_step, h]]
      exact ih _
    · have hb : (w == sig.magic) = false := by simpa using h
      simp only [List.foldl_cons, List.filter_cons, hb]
      rw [if_neg Bool.false_ne_true]
      rw [show guess_step maxOut w st sig = st from by simp [guess_step, h]]
      exact ih st

lemma guess_fold_flatMap (maxOut : Nat) (image : List Nat) (is : List Nat) (st : GuessState) :
    is.foldl (fun st i => signatures.foldl (guess_step maxOut (read_be_u64 image i)) st) st =
    (is.flatMap (fun i =>
        signatures.filter (fun sig => read_be_u64 image i == sig.magic))).foldl
      (matched_step maxOut) st := by
  induction is generalizing st with
  | nil => rfl
  | cons i rest ih =>
    simp only [List.foldl_cons, List.flatMap_cons, List.foldl_append]
    rw [guess_step_filter]
    exact ih _

/-- Highest priority among a list of signatures (0 when empty). -/
def maxPrio (l : List firmware_signature) : Nat :=
  l.foldl (fun a s => max a s.priority) 0

lemma teensy_guess_models_eq (image : List Nat) (maxOut : Nat) :
    teensy_guess_models image maxOut =
    ((matched_signatures image).foldl (matched_step maxOut) ⟨0, []⟩).guesses := by
  unfold teensy_guess_models matched_signatures
  by_cases h : image.length < 8
  · simp [h]
  · simp only [h, if_false]
    rw [guess_fold_flatMap]

/-- Claim C3 as amended: the signature scan examines exactly the window
offsets i with i < size − 8 (the window starting at size − 8 is never
read); when exactly one (offset, signature) pair matches in that range the
returned guesses are exactly that signature's model; and every returned
model comes from a matched signature of the highest matched priority. -/
theorem claim_C3_firmware_identification :
    (∀ (image : List Nat) (s : firmware_signature),
       s ∈ matched_signatures image ↔
       (8 ≤ image.length ∧ ∃ i, i < image.length - 8 ∧ s ∈ signatures ∧
          read_be_u64 image i = s.magic)) ∧
    (∀ (image : List Nat) (maxOut : Nat) (s : firmware_signature),
       1 ≤ maxOut → matched_signatures image = [s] →
       teensy_guess_models image maxOut = [s.model]) ∧
    (∀ (image : List Nat) (maxOut : Nat) (mdl : ty_board_model),
       mdl ∈ teensy_guess_models image maxOut →
       ∃ s ∈ matched_signatures image, s.model = mdl ∧
         s.priority = maxPrio (matched_signatures image)) := by
  refine ⟨?_, ?_, ?_⟩
  · intro image s
    unfold matched_signatures
    by_cases h : image.length < 8
    · simp [h]
    · simp only [h, if_false]
      rw [List.mem_flatMap]
      constructor
      · rintro ⟨i, hi, hs⟩
        rw [List.mem_filter] at hs
        refine ⟨by omega, i, by simpa using List.mem_range.mp hi, hs.1, by simpa using hs.2⟩
      · rintro ⟨h8, i, hi, hsig, hmagic⟩
        exact ⟨i, List.mem_range.mpr hi, List.mem_filter.mpr ⟨hsig, by simpa using hmagic⟩⟩
  · intro image maxOut s hmax hone
    rw [teensy_guess_models_eq, hone]
    simp only [List.foldl_cons, List.foldl_nil, matched_step]
    rw [if_pos (Nat.zero_le _)]
    by_cases hp : s.priority > 0
    · rw [if_pos hp]
      simp only [List.length_nil]
      rw [if_pos (by omega)]
      simp
    · rw [if_neg hp]
      simp only [List.length_nil]
      rw [if_pos (by omega)]
      simp
  · intro image maxOut mdl hm
    rw [teensy_guess_models_eq] at hm
    obtain ⟨hp, hg⟩ := matched_fold_spec maxOut (matched_signatures image) ⟨0, []⟩
    rcases hg mdl hm with ⟨hmem, _⟩ | ⟨s, hs, hsm, hsp⟩
    · simp at hmem
    · exact ⟨s, hs, hsm, by rw [hsp, hp]; rfl⟩

/-- Counterexample for claim C3: an 8-byte firmware that is exactly the
Teensy 3.0 signature magic contains exactly one embedded signature (the
window at offset 0 = size − 8), yet identification returns no model, because
the scan loop `i < size - 8` never reads the final window. -/
theorem claim_C3_counterexample :
    read_be_u64 [0x38, 0x80, 0x04, 0x40, 0x82, 0x3F, 0x04, 0x00] 0 = 0x38800440823F0400 ∧
    (signatures.filter (fun s => s.magic == 0x38800440823F0400)).map
        (fun s => s.model) = [teensy_30_model] ∧
    ([0x38, 0x80, 0x04, 0x40, 0x82, 0x3F, 0x04, 0x00] : List Nat).length = 8 ∧
    teensy_guess_models [0x38, 0x80, 0x04, 0x40, 0x82, 0x3F, 0x04, 0x00] 9 = [] := by
  refine ⟨by decide, by decide, by decide, by decide⟩

/-- Witness for claim C3: a 9-byte firmware carrying the Teensy 3.0 magic at
offset 0 (now strictly below size − 8 = 1) has exactly one match and
identification returns exactly the Teensy 3.0 model. -/
theorem claim_C3_witness :
    teensy_guess_models [0x38, 0x80, 0x04, 0x40, 0x82, 0x3F, 0x04, 0x00, 0] 8 =
      [teensy_30_model] :=
  have h := claim_C3_firmware_identification.2.1
    [0x38, 0x80, 0x04, 0x40, 0x82, 0x3F, 0x04, 0x00, 0] 8
    ⟨0x38800440823F0400, teensy_30_model, 0⟩ (by decide) (by decide)
  by rw [h]

/-! ## Interface serial storage and the compatibility heuristic -/

/-- Claim C10: the monitor stores on every interface the base-10 parse of
the device serial string whatever the device mode; the bootloader-mode hex
string "00BC614E" therefore parses to 0 (the parse stops at the first
non-decimal character); and an interface with serial 0 can fail the
compatibility test only through a model mismatch, never through a serial
mismatch. -/
theorem claim_C10_interface_serial :
    (∀ (dev : HsDevice) (iface : ty_board_interface),
       open_new_interface dev = some iface →
       iface.serial = (match dev.serialNumberString with
                       | some s => strtoull 10 s
                       | none => 0)) ∧
    strtoull 10 "00BC614E" = 0 ∧
    ((open_new_interface ⟨3, "usb1", 0x16C0, 0x478, .hid, 0xFF9C, 0x1D, some "00BC614E"⟩).map
       (fun iface => iface.serial) = some 0) ∧
    (∀ (iface : ty_board_interface) (board : ty_board),
       iface.serial = 0 →
       iface_is_compatible iface board =
         !(ty_board_model_is_real iface.model && ty_board_model_is_real board.model &&
           iface.model != board.model)) := by
  refine ⟨?_, by decide, by decide, ?_⟩
  · intro dev iface h
    unfold open_new_interface at h
    cases hl : teensy_load_interface dev with
    | none => rw [hl] at h; exact absurd h (by simp)
    | some li =>
      rw [hl] at h
      simp only [Option.some.injEq] at h
      rw [← h]
  · intro iface board h
    cases hib : ty_board_model_is_real iface.model <;>
      cases hbb : ty_board_model_is_real board.model <;>
        by_cases hm : iface.model = board.model <;>
          simp [iface_is_compatible, h, hib, hbb, hm]

/-- Witness for claim C10: the serial interface of a device with decimal
serial string "100" stores 100, through `open_new_interface`. -/
theorem claim_C10_witness :
    (⟨⟨4, "usb1", 0x16C0, 0x483, .serial, 0, 0, some "100"⟩, "Serial", teensy_unknown_model,
      strtoull 10 "100",
      (1 <<< TY_BOARD_CAPABILITY_RUN) ||| (1 <<< TY_BOARD_CAPABILITY_SERIAL) |||
      (1 <<< TY_BOARD_CAPABILITY_REBOOT)⟩ : ty_board_interface).serial =
      (match (⟨4, "usb1", 0x16C0, 0x483, .serial, 0, 0, some "100"⟩ : HsDevice).serialNumberString
       with
       | some s => strtoull 10 s
       | none => 0) :=
  claim_C10_interface_serial.1 ⟨4, "usb1", 0x16C0, 0x483, .serial, 0, 0, some "100"⟩ _ (by decide)

/-! ## Monitor listing properties -/

lemma ty_monitor_list_go_take (g : ty_board → Int) (l : List ty_board) :
    ∃ n, ty_monitor_list_go g l =
      ((l.filter (fun b => b.state == .online)).map
        (fun b => (b.bid, ty_monitor_event.added))).take n := by
  induction l with
  | nil => exact ⟨0, rfl⟩
  | cons b rest ih =>
    by_cases hs : b.state = .online
    · by_cases hg : g b = 0
      · obtain ⟨n, hn⟩ := ih
        refine ⟨n + 1, ?_⟩
        simp [ty_monitor_list_go, hs, hg, hn]
      · refine ⟨1, ?_⟩
        simp [ty_monitor_list_go, hs, hg]
    · obtain ⟨n, hn⟩ := ih
      refine ⟨n, ?_⟩
      have hb : (b.state == ty_board_state.online) = false := by
        simpa using hs
      simp [ty_monitor_list_go, hs, hb, hn]

lemma ty_monitor_list_go_zero (l : List ty_board) :
    ty_monitor_list_go (fun _ => 0) l =
      (l.filter (fun b => b.state == .online)).map
        (fun b => (b.bid, ty_monitor_event.added)) := by
  induction l with
  | nil => rfl
  | cons b rest ih =>
    by_cases hs : b.state = .online
    · simp [ty_monitor_list_go, hs, ih]
    · have hb : (b.state == ty_board_state.online) = false := by simpa using hs
      simp [ty_monitor_list_go, hs, hb, ih]

/-- Claim C9: `ty_monitor_list` invokes the callback exactly for the ONLINE
boards, always with event ADDED and in active-list order — the calls made
are a prefix of the ONLINE boards of the list, in order (a prefix because a
non-zero callback return stops the walk), and with a callback that keeps
returning 0 every ONLINE board is reported; MISSING boards, although still
in the board list, are never reported. -/
theorem claim_C9_monitor_list (m : ty_monitor) (g : ty_board → Int) :
    (∃ n, ty_monitor_list m g =
       ((m.boards.filter (fun b => b.state == .online)).map
         (fun b => (b.bid, ty_monitor_event.added))).take n) ∧
    ty_monitor_list m (fun _ => 0) =
      (m.boards.filter (fun b => b.state == .online)).map
        (fun b => (b.bid, ty_monitor_event.added)) :=
  ⟨ty_monitor_list_go_take g m.boards, ty_monitor_list_go_zero m.boards⟩

/-! ## Aggregator invariants (`monitor.c`) -/

lemma unionCaps_append (l : List ty_board_interface) (iface : ty_board_interface) :
    unionCaps (l ++ [iface]) = unionCaps l ||| iface.capabilities := by
  simp [unionCaps, List.foldl_append]

/-- Aggregator invariant maintained by every monitor operation: board
capabilities are the union over attached interfaces, MISSING boards have no
interfaces, drop-queue members are MISSING boards of the active list, board
ids are fresh and unique. -/
structure MonInv (m : ty_monitor) : Prop where
  caps : ∀ b ∈ m.boards, b.capabilities = unionCaps b.interfaces
  missing_empty : ∀ b ∈ m.boards, b.state = .missing → b.interfaces = []
  queue_state : ∀ b ∈ m.boards, b.bid ∈ m.missing_boards → b.state = .missing
  fresh : ∀ b ∈ m.boards, b.bid < m.nextId
  queue_mem : ∀ bid ∈ m.missing_boards, ∃ b ∈ m.boards, b.bid = bid
  nodup : (m.boards.map (fun b => b.bid)).Nodup

lemma mem_mapBoard {m : ty_monitor} {bid : Nat} {f : ty_board → ty_board} {b' : ty_board}
    (h : b' ∈ (mapBoard m bid f).boards) :
    ∃ b ∈ m.boards, b' = if b.bid = bid then f b else b := by
  simp only [mapBoard, List.mem_map] at h
  obtain ⟨b, hb, he⟩ := h
  exact ⟨b, hb, he.symm⟩

lemma mapBoard_bids (m : ty_monitor) (bid : Nat) (f : ty_board → ty_board)
    (hfb : ∀ b, (f b).bid = b.bid) :
    (mapBoard m bid f).boards.map (fun b => b.bid) = m.boards.map (fun b => b.bid) := by
  simp only [mapBoard, List.map_map]
  apply List.map_congr_left
  intro b _
  by_cases h : b.bid = bid <;> simp [h, hfb]

lemma bid_unique {m : ty_monitor} (hInv : MonInv m) {b1 b2 : ty_board}
    (h1 : b1 ∈ m.boards) (h2 : b2 ∈ m.boards) (h : b1.bid = b2.bid) : b1 = b2 :=
  List.inj_on_of_nodup_map hInv.nodup h1 h2 h

lemma monInv_mapBoard {m : ty_monitor} (bid : Nat) (f : ty_board → ty_board)
    (hInv : MonInv m)
    (hfb : ∀ b, (f b).bid = b.bid)
    (hfc : ∀ b, b ∈ m.boards → b.bid = bid → b.capabilities = unionCaps b.interfaces →
             (f b).capabilities = unionCaps (f b).interfaces)
    (hfm : ∀ b, b ∈ m.boards → b.bid = bid → (b.state = .missing → b.interfaces = []) →
             ((f b).state = .missing → (f b).interfaces = []))
    (hfs : ∀ b, b ∈ m.boards → b.bid = bid → b.state = .missing → (f b).state = .missing) :
    MonInv (mapBoard m bid f) := by
  constructor
  · intro b' hb'
    obtain ⟨b, hb, he⟩ := mem_mapBoard hb'
    by_cases h : b.bid = bid
    · rw [he, if_pos h]
      exact hfc b hb h (hInv.caps b hb)
    · rw [he, if_neg h]
      exact hInv.caps b hb
  · intro b' hb'
    obtain ⟨b, hb, he⟩ := mem_mapBoard hb'
    by_cases h : b.bid = bid
    · rw [he, if_pos h]
      exact hfm b hb h (hInv.missing_empty b hb)
    · rw [he, if_neg h]
      exact hInv.missing_empty b hb
  · intro b' hb' hq
    obtain ⟨b, hb, he⟩ := mem_mapBoard hb'
    rw [show (mapBoard m bid f).missing_boards = m.missing_boards from rfl] at hq
    by_cases h : b.bid = bid
    · rw [he, if_pos h]
      rw [he, if_pos h, hfb] at hq
      exact hfs b hb h (hInv.queue_state b hb hq)
    · rw [he, if_neg h]
      rw [he, if_neg h] at hq
      exact hInv.queue_state b hb hq
  · intro b' hb'
    obtain ⟨b, hb, he⟩ := mem_mapBoard hb'
    rw [show (mapBoard m bid f).nextId = m.nextId from rfl]
    by_cases h : b.bid = bid
    · rw [he, if_pos h, hfb]
      exact hInv.fresh b hb
    · rw [he, if_neg h]
      exact hInv.fresh b hb
  · intro bid' hq
    rw [show (mapBoard m bid f).missing_boards = m.missing_boards from rfl] at hq
    obtain ⟨b, hb, he⟩ := hInv.queue_mem bid' hq
    refine ⟨if b.bid = bid then f b else b, ?_, ?_⟩
    · simp only [mapBoard, List.mem_map]
      exact ⟨b, hb, rfl⟩
    · by_cases h : b.bid = bid
      · rw [if_pos h, hfb]
        exact he
      · rw [if_neg h]
        exact he
  · rw [mapBoard_bids m bid f hfb]
    exact hInv.nodup

lemma monInv_drop_board {m : ty_monitor} (bid : Nat) (hInv : MonInv m) :
    MonInv (drop_board m bid).1 := by
  constructor
  · intro b hb
    exact hInv.caps b (List.mem_of_mem_filter hb)
  · intro b hb
    exact hInv.missing_empty b (List.mem_of_mem_filter hb)
  · intro b hb hq
    simp only [drop_board, List.mem_filter] at hb hq
    exact hInv.queue_state b hb.1 hq.1
  · intro b hb
    exact hInv.fresh b (List.mem_of_mem_filter hb)
  · intro bid' hq
    simp only [drop_board, List.mem_filter, decide_eq_true_eq] at hq ⊢
    obtain ⟨b, hb, he⟩ := hInv.queue_mem bid' hq.1
    exact ⟨b, ⟨hb, by simp [he, hq.2]⟩, he⟩
  · have hsub : (drop_board m bid).1.boards.map (fun b => b.bid) =
        (m.boards.map (fun b => b.bid)).filter (fun x => !decide (x = bid)) := by
      simp only [drop_board]
      rw [List.filter_map]
      congr 1
      apply List.filter_congr
      intro b _
      simp [Function.comp, decide_not]
    rw [hsub]
    exact hInv.nodup.filter _

lemma monInv_close_board {m : ty_monitor} (bid : Nat) (hInv : MonInv m) :
    MonInv (close_board m bid).1 :=
  monInv_mapBoard bid close_board_f hInv (fun _ => rfl)
    (fun _ _ _ _ => rfl) (fun _ _ _ _ _ => rfl) (fun _ _ _ _ => rfl)

lemma monInv_add_missing {m : ty_monitor} (bid now : Nat) (hInv : MonInv m)
    (hmiss : ∀ b ∈ m.boards, b.bid = bid → b.state = .missing)
    (hex : ∃ b ∈ m.boards, b.bid = bid) :
    MonInv (add_missing_board m bid now) := by
  have h1 : MonInv (mapBoard m bid (fun b => { b with missing_since := now })) :=
    monInv_mapBoard bid _ hInv (fun _ => rfl) (fun _ _ _ h => h) (fun _ _ _ h => h)
      (fun _ _ _ h => h)
  set m1 := mapBoard m bid (fun b => { b with missing_since := now }) with hm1
  have hboards : (add_missing_board m bid now).boards = m1.boards := rfl
  have hmissing : (add_missing_board m bid now).missing_boards =
      m1.missing_boards.filter (fun x => x ≠ bid) ++ [bid] := rfl
  have hnext : (add_missing_board m bid now).nextId = m1.nextId := rfl
  have hmiss1 : ∀ b ∈ m1.boards, b.bid = bid → b.state = .missing := by
    intro b' hb' he
    obtain ⟨b, hb, hbe⟩ := mem_mapBoard hb'
    by_cases h : b.bid = bid
    · rw [hbe, if_pos h]
      have := hmiss b hb h
      simpa using this
    · rw [hbe, if_neg h] at he ⊢
      exact hmiss b hb he
  constructor
  · rw [hboards]; exact h1.caps
  · rw [hboards]; exact h1.missing_empty
  · intro b hb hq
    rw [hboards] at hb
    rw [hmissing] at hq
    rcases List.mem_append.mp hq with hq | hq
    · exact h1.queue_state b hb (List.mem_of_mem_filter hq)
    · simp only [List.mem_singleton] at hq
      exact hmiss1 b hb hq
  · rw [hboards, hnext]; exact h1.fresh
  · intro bid' hq
    rw [hmissing] at hq
    rw [hboards]
    rcases List.mem_append.mp hq with hq | hq
    · exact h1.queue_mem bid' (List.mem_of_mem_filter hq)
    · simp only [List.mem_singleton] at hq
      obtain ⟨b, hb, he⟩ := hex
      refine ⟨if b.bid = bid then { b with missing_since := now } else b, ?_, ?_⟩
      · simp only [hm1, mapBoard, List.mem_map]
        exact ⟨b, hb, rfl⟩
      · rw [if_pos he, hq]
        exact he
  · rw [hboards]; exact h1.nodup

lemma finish_boards (m : ty_monitor) (bid : Nat) (iface : ty_board_interface)
    (evs : List (Nat × ty_monitor_event)) (ev : ty_monitor_event) :
    (finish_add_interface m bid iface evs ev).1.boards =
    m.boards.map (fun b => if b.bid = bid then
      { b with interfaces := b.interfaces ++ [iface],
               capabilities := b.capabilities ||| iface.capabilities,
               state := .online } else b) := by
  simp only [finish_add_interface, mapBoard, List.map_map]
  apply List.map_congr_left
  intro b _
  by_cases h : b.bid = bid <;> simp [Function.comp, h]

lemma finish_missing (m : ty_monitor) (bid : Nat) (iface : ty_board_interface)
    (evs : List (Nat × ty_monitor_event)) (ev : ty_monitor_event) :
    (finish_add_interface m bid iface evs ev).1.missing_boards =
    m.missing_boards.filter (fun x => x ≠ bid) := rfl

lemma finish_nextId (m : ty_monitor) (bid : Nat) (iface : ty_board_interface)
    (evs : List (Nat × ty_monitor_event)) (ev : ty_monitor_event) :
    (finish_add_interface m bid iface evs ev).1.nextId = m.nextId := rfl

lemma finish_events (m : ty_monitor) (bid : Nat) (iface : ty_board_interface)
    (evs : List (Nat × ty_monitor_event)) (ev : ty_monitor_event) :
    (finish_add_interface m bid iface evs ev).2 = evs ++ [(bid, ev)] := rfl

lemma monInv_finish {m : ty_monitor} (bid : Nat) (iface : ty_board_interface)
    (evs : List (Nat × ty_monitor_event)) (ev : ty_monitor_event) (hInv : MonInv m) :
    MonInv (finish_add_interface m bid iface evs ev).1 := by
  have hb := finish_boards m bid iface evs ev
  have hq := finish_missing m bid iface evs ev
  have hn := finish_nextId m bid iface evs ev
  constructor
  · intro b' hb'
    rw [hb] at hb'
    obtain ⟨b, hbm, he⟩ := List.mem_map.mp hb'
    by_cases h : b.bid = bid
    · rw [if_pos h] at he
      rw [← he]
      simp only
      rw [hInv.caps b hbm, unionCaps_append]
    · rw [if_neg h] at he
      rw [← he]
      exact hInv.caps b hbm
  · intro b' hb'
    rw [hb] at hb'
    obtain ⟨b, hbm, he⟩ := List.mem_map.mp hb'
    by_cases h : b.bid = bid
    · rw [if_pos h] at he
      rw [← he]
      intro hst
      exact absurd hst (by simp)
    · rw [if_neg h] at he
      rw [← he]
      exact hInv.missing_empty b hbm
  · intro b' hb' hq'
    rw [hb] at hb'
    rw [hq] at hq'
    obtain ⟨b, hbm, he⟩ := List.mem_map.mp hb'
    simp only [List.mem_filter, decide_eq_true_eq] at hq'
    by_cases h : b.bid = bid
    · rw [if_pos h] at he
      rw [← he] at hq'
      simp only at hq'
      exact absurd (h ▸ hq'.2) (by simp)
    · rw [if_neg h] at he
      rw [← he] at hq' ⊢
      exact hInv.queue_state b hbm hq'.1
  · intro b' hb'
    rw [hb] at hb'
    rw [hn]
    obtain ⟨b, hbm, he⟩ := List.mem_map.mp hb'
    by_cases h : b.bid = bid
    · rw [if_pos h] at he
      rw [← he]
      exact hInv.fresh b hbm
    · rw [if_neg h] at he
      rw [← he]
      exact hInv.fresh b hbm
  · intro bid' hq'
    rw [hq] at hq'
    rw [hb]
    obtain ⟨b, hbm, he⟩ := hInv.queue_mem bid' (List.mem_of_mem_filter hq')
    refine ⟨if b.bid = bid then
      { b with interfaces := b.interfaces ++ [iface],
               capabilities := b.capabilities ||| iface.capabilities,
               state := .online } else b, List.mem_map.mpr ⟨b, hbm, rfl⟩, ?_⟩
    by_cases h : b.bid = bid
    · rw [if_pos h]
      exact he
    · rw [if_neg h]
      exact he
  · rw [hb]
    have : (m.boards.map (fun b => if b.bid = bid then
        { b with interfaces := b.interfaces ++ [iface],
                 capabilities := b.capabilities ||| iface.capabilities,
                 state := .online } else b)).map (fun b => b.bid) =
        m.boards.map (fun b => b.bid) := by
      simp only [List.map_map]
      apply List.map_congr_left
      intro b _
      by_cases h : b.bid = bid <;> simp [Function.comp, h]
    rw [this]
    exact hInv.nodup

lemma monInv_add_board {m : ty_monitor} (iface : ty_board_interface) (hInv : MonInv m) :
    MonInv (add_board m iface).1 := by
  have hnotin : m.nextId ∉ m.missing_boards := by
    intro h
    obtain ⟨b, hb, he⟩ := hInv.queue_mem m.nextId h
    exact absurd (he ▸ hInv.fresh b hb) (lt_irrefl _)
  constructor
  · intro b hb
    rcases List.mem_append.mp hb with hb | hb
    · exact hInv.caps b hb
    · simp only [List.mem_singleton] at hb
      subst hb
      rfl
  · intro b hb
    rcases List.mem_append.mp hb with hb | hb
    · exact hInv.missing_empty b hb
    · simp only [List.mem_singleton] at hb
      subst hb
      intro h
      exact absurd h (by simp [add_board])
  · intro b hb hq
    rcases List.mem_append.mp hb with hb | hb
    · exact hInv.queue_state b hb hq
    · simp only [List.mem_singleton] at hb
      subst hb
      exact absurd hq hnotin
  · intro b hb
    rcases List.mem_append.mp hb with hb | hb
    · exact Nat.lt_succ_of_lt (hInv.fresh b hb)
    · simp only [List.mem_singleton] at hb
      subst hb
      exact Nat.lt_succ_self _
  · intro bid hq
    obtain ⟨b, hb, he⟩ := hInv.queue_mem bid hq
    exact ⟨b, List.mem_append.mpr (Or.inl hb), he⟩
  · simp only [add_board, List.map_append, List.map_cons, List.map_nil]
    rw [List.nodup_append]
    refine ⟨hInv.nodup, List.nodup_singleton _, ?_⟩
    intro x hx
    simp only [List.mem_singleton]
    obtain ⟨b, hb, he⟩ := List.mem_map.mp hx
    intro hc
    rw [← he] at hc
    exact absurd (hc ▸ hInv.fresh b hb) (lt_irrefl _)

lemma monInv_update_model_serial {m : ty_monitor} (bid : Nat) (iface : ty_board_interface)
    (hInv : MonInv m) :
    MonInv (mapBoard m bid (fun b =>
      let b := if ty_board_model_is_real iface.model then { b with model := iface.model } else b
      if iface.serial ≠ 0 then { b with serial := iface.serial } else b)) := by
  apply monInv_mapBoard bid _ hInv
  · intro b
    by_cases h1 : ty_board_model_is_real iface.model <;>
      by_cases h2 : iface.serial ≠ 0 <;> simp [h1, h2]
  · intro b _ _ h
    by_cases h1 : ty_board_model_is_real iface.model <;>
      by_cases h2 : iface.serial ≠ 0 <;> simpa [h1, h2] using h
  · intro b _ _ h
    by_cases h1 : ty_board_model_is_real iface.model <;>
      by_cases h2 : iface.serial ≠ 0 <;> simpa [h1, h2] using h
  · intro b _ _ h
    by_cases h1 : ty_board_model_is_real iface.model <;>
      by_cases h2 : iface.serial ≠ 0 <;> simpa [h1, h2] using h

lemma monInv_vidpid {m : ty_monitor} (bid vid pid : Nat) (hInv : MonInv m) :
    MonInv (mapBoard m bid (fun b => { b with vid := vid, pid := pid })) :=
  monInv_mapBoard bid _ hInv (fun _ => rfl) (fun _ _ _ h => h) (fun _ _ _ h => h)
    (fun _ _ _ h => h)

lemma monInv_add_interface_existing {m : ty_monitor} (dev : HsDevice) (board : ty_board)
    (iface : ty_board_interface) (hInv : MonInv m) :
    MonInv (add_interface_existing m dev board iface).1 := by
  unfold add_interface_existing
  by_cases hvp : board.vid ≠ dev.vid ∨ board.pid ≠ dev.pid
  · rw [if_pos hvp]
    by_cases hon : board.state = .online
    · rw [if_pos hon]
      exact monInv_finish _ _ _ _
        (monInv_update_model_serial _ _ (monInv_vidpid _ _ _ (monInv_close_board _ hInv)))
    · rw [if_neg hon]
      exact monInv_finish _ _ _ _
        (monInv_update_model_serial _ _ (monInv_vidpid _ _ _ hInv))
  · rw [if_neg hvp]
    exact monInv_finish _ _ _ _ (monInv_update_model_serial _ _ hInv)

lemma monInv_add_interface_new {m : ty_monitor} (iface : ty_board_interface)
    (evs : List (Nat × ty_monitor_event)) (hInv : MonInv m) :
    MonInv (add_interface_new m iface evs).1 := by
  unfold add_interface_new
  exact monInv_finish _ _ _ _ (monInv_add_board iface hInv)

lemma monInv_add_interface {m : ty_monitor} (dev : HsDevice) (hInv : MonInv m) :
    MonInv (add_interface m dev).1 := by
  unfold add_interface
  split
  · exact hInv
  · rename_i iface _
    split
    · rename_i board _
      split
      · exact monInv_add_interface_existing dev board iface hInv
      · by_cases hon : board.state = .online
        · rw [if_pos hon]
          exact monInv_add_interface_new _ _
            (monInv_drop_board _ (monInv_close_board _ hInv))
        · rw [if_neg hon]
          exact monInv_add_interface_new _ _ (monInv_drop_board _ hInv)
    · exact monInv_add_interface_new iface [] hInv

lemma find_interface_mem {m : ty_monitor} {devId : Nat} {board : ty_board}
    {iface : ty_board_interface} (h : find_interface m devId = some (board, iface)) :
    board ∈ m.boards ∧ iface ∈ board.interfaces := by
  unfold find_interface at h
  obtain ⟨b, hb, hsome⟩ := List.exists_of_findSome?_eq_some h
  obtain ⟨ifc, hfind, hpair⟩ := Option.map_eq_some'.mp hsome
  obtain ⟨hb1, hb2⟩ := Prod.mk.injEq .. ▸ hpair
  subst hb1
  subst hb2
  exact ⟨hb, List.mem_of_find?_eq_some hfind⟩

lemma mapBoard_mem_image {m : ty_monitor} {bid : Nat} {f : ty_board → ty_board}
    {b : ty_board} (hb : b ∈ m.boards) :
    (if b.bid = bid then f b else b) ∈ (mapBoard m bid f).boards :=
  List.mem_map.mpr ⟨b, hb, rfl⟩

lemma monInv_remove_interface {m : ty_monitor} (devId now : Nat) (hInv : MonInv m) :
    MonInv (remove_interface m devId now).1 := by
  unfold remove_interface
  split
  · exact hInv
  · rename_i pair board iface hfi
    obtain ⟨hboard, hiface⟩ := find_interface_mem hfi
    have hnotmiss : board.state ≠ .missing := by
      intro hst
      have := hInv.missing_empty board hboard hst
      rw [this] at hiface
      exact absurd hiface (List.not_mem_nil _)
    have h1 : MonInv (mapBoard m board.bid (fun b =>
        { b with interfaces := removeFirstIface board.interfaces devId,
                 capabilities := unionCaps (removeFirstIface board.interfaces devId) })) := by
      refine monInv_mapBoard board.bid _ hInv (fun _ => rfl) (fun _ _ _ _ => rfl) ?_ ?_
      · intro b hb hbid _ hst
        have hbb : b = board := bid_unique hInv hb hboard hbid
        exact absurd (hbb ▸ hst) hnotmiss
      · intro b hb hbid hst
        have hbb : b = board := bid_unique hInv hb hboard hbid
        exact absurd (hbb ▸ hst) hnotmiss
    split
    · apply monInv_add_missing _ now (monInv_close_board _ h1)
      · intro b hb hbid
        obtain ⟨b0, hb0, he⟩ := mem_mapBoard hb
        by_cases h : b0.bid = board.bid
        · rw [he, if_pos h]
          rfl
        · rw [he, if_neg h] at hbid
          exact absurd hbid h
      · refine ⟨_, mapBoard_mem_image (f := close_board_f) (mapBoard_mem_image hboard), ?_⟩
        simp [close_board_f]
    · exact h1

lemma monInv_refresh_go : ∀ (queue : List Nat) (m : ty_monitor) (now : Nat),
    MonInv m → MonInv (refresh_drops_go m queue now).1 := by
  intro queue
  induction queue with
  | nil => intro m now h; exact h
  | cons bid rest ih =>
    intro m now h
    unfold refresh_drops_go
    split
    · exact h
    · split
      · exact h
      · exact ih _ now (monInv_drop_board bid h)

lemma monInv_monStep {m : ty_monitor} (op : MonOp) (now : Nat) (hInv : MonInv m) :
    MonInv (monStep m op now).1 := by
  cases op with
  | add dev => exact monInv_add_interface dev hInv
  | remove devId => exact monInv_remove_interface devId now hInv
  | refresh tf =>
    show MonInv (ty_monitor_refresh m tf now).1
    unfold ty_monitor_refresh
    split
    · exact monInv_refresh_go _ _ _ hInv
    · exact hInv

lemma monInv_init : MonInv ty_monitor_new := by
  constructor <;> simp [ty_monitor_new]

lemma monInv_runTrace : ∀ (ops : List (Nat × MonOp)) (m : ty_monitor),
    MonInv m → MonInv (runTrace m ops).1 := by
  intro ops
  induction ops with
  | nil => intro m h; exact h
  | cons p rest ih =>
    intro m h
    unfold runTrace
    exact ih _ (monInv_monStep p.2 p.1 h)

/-- Claim C1: after every sequence of monitor operations (interface adds and
removals, and drop-timer refreshes), every board in the aggregator has
capabilities equal to the bitwise union of the capabilities of its attached
interfaces; in particular a board closed to MISSING has no interfaces and
capabilities = 0. -/
theorem claim_C1_capability_union (ops : List (Nat × MonOp)) (b : ty_board)
    (hb : b ∈ (runTrace ty_monitor_new ops).1.boards) :
    b.capabilities = unionCaps b.interfaces ∧
    (b.state = .missing → b.interfaces = [] ∧ b.capabilities = 0) := by
  have hInv := monInv_runTrace ops ty_monitor_new monInv_init
  refine ⟨hInv.caps b hb, ?_⟩
  intro hst
  have he := hInv.missing_empty b hb hst
  exact ⟨he, by rw [hInv.caps b hb, he]; rfl⟩

/-- Board reached by adding a serial device at location usb2 and then
removing it: MISSING with no interfaces. -/
def c1_demo_board : ty_board :=
  { bid := 0, location := "usb2", model := teensy_unknown_model, serial := 100,
    vid := 0x16C0, pid := 0x483, id := "100-Teensy", state := .missing,
    capabilities := 0, interfaces := [], missing_since := 5 }

/-- Witness for claim C1: a board made MISSING by removing its only
interface has capabilities 0 and no interfaces. -/
theorem claim_C1_witness :
    c1_demo_board.capabilities = unionCaps c1_demo_board.interfaces ∧
    (c1_demo_board.state = .missing →
      c1_demo_board.interfaces = [] ∧ c1_demo_board.capabilities = 0) :=
  claim_C1_capability_union
    [(0, .add ⟨20, "usb2", 0x16C0, 0x483, .serial, 0, 0, some "100"⟩), (5, .remove 20)]
    c1_demo_board (by decide)

lemma ty_adjust_timeout_zero_iff (t s now : Nat) :
    ty_adjust_timeout t s now = 0 ↔ s + t ≤ now := by
  unfold ty_adjust_timeout
  by_cases hc : s + t ≤ now
  · simp [hc]
  · rw [if_neg hc]
    omega

lemma lookupBoard_mem {m : ty_monitor} {bid : Nat} {board : ty_board}
    (h : lookupBoard m bid = some board) : board ∈ m.boards ∧ board.bid = bid := by
  unfold lookupBoard at h
  exact ⟨List.mem_of_find?_eq_some h, by simpa using List.find?_some h⟩

lemma refresh_go_gate : ∀ (queue : List Nat) (m : ty_monitor) (now : Nat),
    (∀ b ∈ m.boards, b.bid ∈ queue → b.state = .missing ∧ b.interfaces = []) →
    ∀ bid ev, (bid, ev) ∈ (refresh_drops_go m queue now).2 →
      ev = .dropped ∧
      ∃ b ∈ m.boards, b.bid = bid ∧ b.state = .missing ∧ b.interfaces = [] ∧
        b.missing_since + DROP_BOARD_DELAY ≤ now := by
  intro queue
  induction queue with
  | nil =>
    intro m now H bid ev h
    exact absurd h (List.not_mem_nil _)
  | cons q rest ih =>
    intro m now H bid ev h
    unfold refresh_drops_go at h
    split at h
    · exact absurd h (List.not_mem_nil _)
    · rename_i board hl
      obtain ⟨hbm, hbq⟩ := lookupBoard_mem hl
      split at h
      · exact absurd h (List.not_mem_nil _)
      · rename_i ht
        push_neg at ht
        have htime : board.missing_since + DROP_BOARD_DELAY ≤ now :=
          (ty_adjust_timeout_zero_iff _ _ _).mp ht
        rcases List.mem_append.mp h with h | h
        · simp only [drop_board, List.mem_singleton, Prod.mk.injEq] at h
          obtain ⟨h1, h2⟩ := h
          obtain ⟨hst, hif⟩ := H board hbm (by rw [hbq]; exact List.mem_cons_self q rest)
          exact ⟨h2, board, hbm, by rw [hbq, h1], hst, hif, htime⟩
        · have H1 : ∀ b ∈ (drop_board m q).1.boards, b.bid ∈ rest →
              b.state = .missing ∧ b.interfaces = [] := by
            intro b hb hr
            exact H b (List.mem_of_mem_filter hb) (List.mem_cons_of_mem q hr)
          obtain ⟨hev, b, hb, hrest⟩ := ih _ now H1 bid ev h
          exact ⟨hev, b, List.mem_of_mem_filter hb, hrest⟩

lemma mem_mapBoard_of_ne {m : ty_monitor} {bid : Nat} {f : ty_board → ty_board}
    (hfb : ∀ b, (f b).bid = b.bid) {b' : ty_board}
    (h : b' ∈ (mapBoard m bid f).boards) (hne : b'.bid ≠ bid) : b' ∈ m.boards := by
  obtain ⟨b, hb, he⟩ := mem_mapBoard h
  by_cases hh : b.bid = bid
  · rw [he, if_pos hh] at hne
    rw [hfb] at hne
    exact absurd hh hne
  · rw [he, if_neg hh]
    exact hb

lemma finish_mem_of_missing {m : ty_monitor} {bid : Nat} {iface : ty_board_interface}
    {evs : List (Nat × ty_monitor_event)} {ev : ty_monitor_event} {b' : ty_board}
    (h : b' ∈ (finish_add_interface m bid iface evs ev).1.boards)
    (hm : b'.state = .missing) : b' ∈ m.boards ∧ b'.bid ≠ bid := by
  rw [finish_boards] at h
  obtain ⟨b, hb, he⟩ := List.mem_map.mp h
  by_cases hh : b.bid = bid
  · rw [if_pos hh] at he
    rw [← he] at hm
    exact absurd hm (by simp)
  · rw [if_neg hh] at he
    rw [← he]
    exact ⟨hb, hh⟩

lemma update_model_serial_bid (iface : ty_board_interface) :
    ∀ b : ty_board,
      ((fun b =>
        let b := if ty_board_model_is_real iface.model then { b with model := iface.model } else b
        if iface.serial ≠ 0 then { b with serial := iface.serial } else b) b).bid = b.bid := by
  intro b
  by_cases h1 : ty_board_model_is_real iface.model <;>
    by_cases h2 : iface.serial ≠ 0 <;> simp [h1, h2]

lemma close_board_f_bid : ∀ b : ty_board, (close_board_f b).bid = b.bid := fun _ => rfl

lemma vidpid_update_bid (v p : Nat) :
    ∀ b : ty_board, (({ b with vid := v, pid := p } : ty_board)).bid = b.bid := fun _ => rfl

lemma add_interface_missing_mem {m : ty_monitor} {dev : HsDevice} {b' : ty_board}
    (h : b' ∈ (add_interface m dev).1.boards) (hm : b'.state = .missing) :
    b' ∈ m.boards := by
  unfold add_interface at h
  split at h
  · exact h
  · rename_i iface _
    split at h
    · rename_i board _
      split at h
      · -- compatible: existing path
        unfold add_interface_existing at h
        by_cases hvp : board.vid ≠ dev.vid ∨ board.pid ≠ dev.pid
        · rw [if_pos hvp] at h
          by_cases hon : board.state = .online
          · rw [if_pos hon] at h
            obtain ⟨h2, hne⟩ := finish_mem_of_missing h hm
            have s1 := mem_mapBoard_of_ne (update_model_serial_bid iface) h2 hne
            have s2 := mem_mapBoard_of_ne (vidpid_update_bid dev.vid dev.pid) s1 hne
            exact mem_mapBoard_of_ne close_board_f_bid s2 hne
          · rw [if_neg hon] at h
            obtain ⟨h2, hne⟩ := finish_mem_of_missing h hm
            have s1 := mem_mapBoard_of_ne (update_model_serial_bid iface) h2 hne
            exact mem_mapBoard_of_ne (vidpid_update_bid dev.vid dev.pid) s1 hne
        · rw [if_neg hvp] at h
          obtain ⟨h2, hne⟩ := finish_mem_of_missing h hm
          exact mem_mapBoard_of_ne (update_model_serial_bid iface) h2 hne
      · -- incompatible: heuristic drop then new board
        by_cases hon : board.state = .online
        · rw [if_pos hon] at h
          unfold add_interface_new at h
          obtain ⟨h2, hne⟩ := finish_mem_of_missing h hm
          rcases List.mem_append.mp h2 with h3 | h3
          · have h4 := List.mem_of_mem_filter h3
            have h5 : b'.bid ≠ board.bid := by
              have := List.of_mem_filter h3
              simpa using this
            exact mem_mapBoard_of_ne close_board_f_bid h4 h5
          · simp only [List.mem_singleton] at h3
            rw [h3] at hm
            exact absurd hm (by simp [add_board])
        · rw [if_neg hon] at h
          unfold add_interface_new at h
          obtain ⟨h2, hne⟩ := finish_mem_of_missing h hm
          rcases List.mem_append.mp h2 with h3 | h3
          · exact List.mem_of_mem_filter h3
          · simp only [List.mem_singleton] at h3
            rw [h3] at hm
            exact absurd hm (by simp [add_board])
    · -- no board at this location: new board
      unfold add_interface_new at h
      obtain ⟨h2, hne⟩ := finish_mem_of_missing h hm
      rcases List.mem_append.mp h2 with h3 | h3
      · exact h3
      · simp only [List.mem_singleton] at h3
        rw [h3] at hm
        exact absurd hm (by simp [add_board])

lemma missing_since_update_bid (t : Nat) :
    ∀ b : ty_board, (({ b with missing_since := t } : ty_board)).bid = b.bid := fun _ => rfl

lemma iface_caps_update_bid (l : List ty_board_interface) :
    ∀ b : ty_board,
      (({ b with interfaces := l, capabilities := unionCaps l } : ty_board)).bid = b.bid :=
  fun _ => rfl

lemma remove_interface_missing_persist {m : ty_monitor} (hInv : MonInv m) (devId now : Nat) :
    ∀ b' ∈ (remove_interface m devId now).1.boards, b'.state = .missing →
      (b' ∈ m.boards ∧ b'.interfaces = []) ∨ b'.missing_since = now := by
  intro b' hb' hm
  unfold remove_interface at hb'
  split at hb'
  · exact Or.inl ⟨hb', hInv.missing_empty b' hb' hm⟩
  · rename_i pair board iface hfi
    obtain ⟨hboard, hiface⟩ := find_interface_mem hfi
    have hnotmiss : board.state ≠ .missing := by
      intro hst
      have := hInv.missing_empty board hboard hst
      rw [this] at hiface
      exact absurd hiface (List.not_mem_nil _)
    split at hb'
    · by_cases hne : b'.bid = board.bid
      · right
        obtain ⟨b0, hb0, he⟩ := mem_mapBoard hb'
        by_cases h0 : b0.bid = board.bid
        · rw [he, if_pos h0]
        · rw [he, if_neg h0] at hne
          exact absurd hne h0
      · left
        have s1 := mem_mapBoard_of_ne (missing_since_update_bid now) hb' hne
        have s2 := mem_mapBoard_of_ne close_board_f_bid s1 hne
        have s3 := mem_mapBoard_of_ne
          (iface_caps_update_bid (removeFirstIface board.interfaces devId)) s2 hne
        exact ⟨s3, hInv.missing_empty b' s3 hm⟩
    · obtain ⟨b0, hb0, he⟩ := mem_mapBoard hb'
      by_cases h0 : b0.bid = board.bid
      · have hbb : b0 = board := bid_unique hInv hb0 hboard h0
        rw [he, if_pos h0] at hm
        exact absurd (hbb ▸ (hm : b0.state = .missing)) hnotmiss
      · rw [he, if_neg h0] at hm ⊢
        exact Or.inl ⟨hb0, hInv.missing_empty b0 hb0 hm⟩

lemma refresh_go_boards_sub : ∀ (queue : List Nat) (m : ty_monitor) (now : Nat),
    ∀ b' ∈ (refresh_drops_go m queue now).1.boards, b' ∈ m.boards := by
  intro queue
  induction queue with
  | nil => intro m now b' h; exact h
  | cons q rest ih =>
    intro m now b' h
    unfold refresh_drops_go at h
    split at h
    · exact h
    · split at h
      · exact h
      · exact List.mem_of_mem_filter (ih _ now b' h)

lemma monStep_missing_persist {m : ty_monitor} (hInv : MonInv m) (op : MonOp) (now : Nat) :
    ∀ b' ∈ (monStep m op now).1.boards, b'.state = .missing →
      (b' ∈ m.boards ∧ b'.interfaces = []) ∨ b'.missing_since = now := by
  cases op with
  | add dev =>
    intro b' hb' hm
    have h := add_interface_missing_mem hb' hm
    exact Or.inl ⟨h, hInv.missing_empty b' h hm⟩
  | remove devId => exact remove_interface_missing_persist hInv devId now
  | refresh tf =>
    intro b' hb' hm
    rw [show (monStep m (.refresh tf) now).1 = (ty_monitor_refresh m tf now).1 from rfl] at hb'
    unfold ty_monitor_refresh at hb'
    split at hb'
    · have h := refresh_go_boards_sub _ _ _ b' hb'
      exact Or.inl ⟨h, hInv.missing_empty b' h hm⟩
    · exact Or.inl ⟨hb', hInv.missing_empty b' hb' hm⟩

/-- Counterexample for claim C2: two serial devices with different non-zero
serials at the same location, both at time 0. The second add finds the
existing ONLINE board incompatible and the board is closed and DROPPED
immediately — the DROPPED event fires at time 0, with no DROP_DELAY
(15000 ms) of absence and directly from a state that had an attached
interface an instant before. -/
theorem claim_C2_counterexample :
    (runTrace ty_monitor_new
      [(0, .add ⟨20, "usb2", 0x16C0, 0x483, .serial, 0, 0, some "100"⟩),
       (0, .add ⟨21, "usb2", 0x16C0, 0x483, .serial, 0, 0, some "200"⟩)]).2 =
      [(0, 0, .added), (0, 0, .disappeared), (0, 0, .dropped), (0, 1, .added)] ∧
    DROP_BOARD_DELAY = 15000 :=
  ⟨by decide, rfl⟩

/-- Claim C2 as amended: in any reachable monitor state, (1) a refresh of
the drop timer emits only DROPPED events, and only for boards that are
MISSING with an empty interface list and whose missing_since timestamp lies
at least DROP_BOARD_DELAY = 15000 ms in the past; (2) a board that is
MISSING after any operation either was already MISSING before it, unchanged
(same record, so same missing_since, and with no interfaces), or had its
missing_since stamped with the current time by the operation that closed it
— so outside the immediate identity-conflict drop in add_interface, a board
is DROPPED only after DROP_BOARD_DELAY ms of uninterrupted absence. -/
theorem claim_C2_drop_timing (ops : List (Nat × MonOp)) (m : ty_monitor)
    (hm : m = (runTrace ty_monitor_new ops).1) :
    (∀ (tf : Bool) (now bid : Nat) (ev : ty_monitor_event),
       (bid, ev) ∈ (monStep m (.refresh tf) now).2 →
       ev = .dropped ∧
       ∃ b ∈ m.boards, b.bid = bid ∧ b.state = .missing ∧ b.interfaces = [] ∧
         b.missing_since + DROP_BOARD_DELAY ≤ now) ∧
    (∀ (op : MonOp) (now : Nat) (b' : ty_board),
       b' ∈ (monStep m op now).1.boards → b'.state = .missing →
       (b' ∈ m.boards ∧ b'.interfaces = []) ∨ b'.missing_since = now) := by
  subst hm
  have hInv := monInv_runTrace ops ty_monitor_new monInv_init
  constructor
  · intro tf now bid ev h
    rw [show (monStep (runTrace ty_monitor_new ops).1 (.refresh tf) now).2 =
        (ty_monitor_refresh (runTrace ty_monitor_new ops).1 tf now).2 from rfl] at h
    unfold ty_monitor_refresh at h
    split at h
    · exact refresh_go_gate _ _ now
        (fun b hb hq => ⟨hInv.queue_state b hb hq,
          hInv.missing_empty b hb (hInv.queue_state b hb hq)⟩) bid ev h
    · exact absurd h (List.not_mem_nil _)
  · intro op now
    exact monStep_missing_persist hInv op now

/-- Witness for claim C2: a board that disappeared at t = 100 is dropped by
a timer refresh at t = 15100, with its missing_since + 15000 ≤ 15100. -/
theorem claim_C2_witness :
    ty_monitor_event.dropped = .dropped ∧
    ∃ b ∈ (runTrace ty_monitor_new
        [(0, .add ⟨20, "usb2", 0x16C0, 0x483, .serial, 0, 0, some "100"⟩),
         (100, .remove 20)]).1.boards,
      b.bid = 0 ∧ b.state = .missing ∧ b.interfaces = [] ∧
        b.missing_since + DROP_BOARD_DELAY ≤ 15100 :=
  (claim_C2_drop_timing
    [(0, .add ⟨20, "usb2", 0x16C0, 0x483, .serial, 0, 0, some "100"⟩),
     (100, .remove 20)] _ rfl).1 true 15100 0 .dropped (by decide)
